import Mathlib

/-!
Shallow embedding of `src/galeshapley.ts` (Gale-Shapley matcher).

The TypeScript module defines two classes:

* `MatchContainer<Type>` — a per-item tracker with fields `obj`, `match`
  (a profile/vacancy index or `null`), `currentCandidate` (cursor) and
  `candidates` (snapshot of the opposite side's items), plus the method
  `nextCandidate()`.
* `Matcher<Type>` — the engine holding `wrappedProfiles`, `wrappedVacancies`,
  the injected `vacancyPrefersProfile` predicate, `maxLoopCount` and the
  `done` flag, with methods `match()`, `evictUnmatching()` and `getMatches()`.

JavaScript `null` becomes `Option`, in-place mutation becomes explicit state
passing, the `number` fields hold only non-negative integers in every reachable
state so they are modelled as `Nat` (with `maxLoopCount <= 0` thus meaning
`maxLoopCount = 0`), and the sentinel returned by `nextCandidate` is the
integer `-1`, so its return value is an `Int`.  A `throw` becomes
`Except String`.  Array reads `a[i]` are modelled by `a[i]?`; every fallback
branch for a `none` result is marked unreachable-from-the-constructor in a
comment (in JS such a read would yield `undefined` and then crash).
-/

set_option maxRecDepth 4096

namespace GaleShapley

/-- Embeds the class `MatchContainer<Type>`: `obj` is the wrapped item,
`«match»` the index of the current match on the opposite side (or `none`),
`currentCandidate` the proposal cursor and `candidates` the fixed snapshot of
the opposite side's items. -/
structure MatchContainer (T : Type) where
  obj : T
  «match» : Option Nat
  currentCandidate : Nat
  candidates : List T

namespace MatchContainer

variable {T : Type}

/-- Embeds the `MatchContainer` constructor: `match = null`,
`currentCandidate = 0`. -/
def new (obj : T) (candidates : List T) : MatchContainer T :=
  { obj := obj, «match» := none, currentCandidate := 0, candidates := candidates }

/-- Embeds `nextCandidate()`: return `-1` when the cursor has reached the end
of the candidate list, otherwise return the cursor and increment it. -/
def nextCandidate (c : MatchContainer T) : Int × MatchContainer T :=
  if c.candidates.length ≤ c.currentCandidate then
    (-1, c)
  else
    ((c.currentCandidate : Int), { c with currentCandidate := c.currentCandidate + 1 })

/-- The state after one `nextCandidate()` call (discarding the returned index). -/
def advance (c : MatchContainer T) : MatchContainer T :=
  c.nextCandidate.snd

end MatchContainer

/-- Embeds the class `Matcher<Type>`. -/
structure Matcher (T : Type) where
  wrappedProfiles : List (MatchContainer T)
  wrappedVacancies : List (MatchContainer T)
  vacancyPrefersProfile : T → Option T → T → Bool
  maxLoopCount : Nat
  done : Bool

namespace Matcher

variable {T : Type}

/-- Embeds the `Matcher` constructor: wrap every profile with the vacancy list
as candidates and every vacancy with the profile list as candidates;
`done = false`. -/
def new (profiles vacancies : List T)
    (vacancyPrefersProfile : T → Option T → T → Bool) (maxLoopCount : Nat) :
    Matcher T :=
  { wrappedProfiles := profiles.map (fun item => MatchContainer.new item vacancies)
    wrappedVacancies := vacancies.map (fun item => MatchContainer.new item profiles)
    vacancyPrefersProfile := vacancyPrefersProfile
    maxLoopCount := maxLoopCount
    done := false }

/-- Assignment `l[i].match = m` on a tracker list (a no-op when `i` is out of
range, which never happens in a reachable state). -/
def setMatch (l : List (MatchContainer T)) (i : Nat) (m : Option Nat) :
    List (MatchContainer T) :=
  match l[i]? with
  | none => l
  | some c => l.set i { c with «match» := m }

/-- Embeds the body of the `forEach` callback inside `match()` for the profile
at `profileIndex`: draw the next candidate vacancy index via `nextCandidate()`
(skip when it returns `-1`), then run the acceptance logic.  The JS statement
`if (candidateVacancy.match === null) this.done = false;` runs before both
branches, which is why every branch below with `cv.match = none` ends with
`done := false`. -/
def stepProfile (s : Matcher T) (profileIndex : Nat) : Matcher T :=
  match s.wrappedProfiles[profileIndex]? with
  | none => s
  | some wp =>
    let res := wp.nextCandidate
    if res.fst = -1 then s
    else
      let cviN := res.fst.toNat
      let ps1 := s.wrappedProfiles.set profileIndex res.snd
      match s.wrappedVacancies[cviN]? with
      | none => { s with wrappedProfiles := ps1 } -- unreachable: cursor < candidates length = vacancy count
      | some cv =>
        match cv.«match» with
        | none =>
          match wp.«match» with
          | none =>
            -- immediate acceptance: vacancy and profile both unmatched
            { s with done := false
                     wrappedProfiles := setMatch ps1 profileIndex (some cviN)
                     wrappedVacancies := setMatch s.wrappedVacancies cviN (some profileIndex) }
          | some _ =>
            -- `currentMatch` is null, so the `else if` guard fails: no predicate call
            { s with done := false, wrappedProfiles := ps1 }
        | some j =>
          match ps1[j]? with
          | none => { s with wrappedProfiles := ps1 } -- unreachable: stored match indices are in range
          | some cm =>
            if s.vacancyPrefersProfile cv.obj (some cm.obj) wp.obj then
              { s with done := false
                       wrappedProfiles := setMatch (setMatch ps1 j none) profileIndex (some cviN)
                       wrappedVacancies := setMatch s.wrappedVacancies cviN (some profileIndex) }
            else
              { s with wrappedProfiles := ps1 }

/-- Embeds one iteration of the `while` loop body in `match()`:
`this.done = true` followed by `this.wrappedProfiles.forEach(...)`. -/
def runRound (s : Matcher T) : Matcher T :=
  (List.range s.wrappedProfiles.length).foldl stepProfile { s with done := true }

/-- One conditional round: run `runRound` unless `done` already holds.  The
state after `k` applications is the state at the end of the `k`-th executed
round of the `while` loop (the loop stops changing the state once `done`). -/
def loopStep (s : Matcher T) : Matcher T :=
  if s.done then s else s.runRound

/-- The state after (up to) `k` executed rounds of the `while` loop. -/
def rounds (s : Matcher T) : Nat → Matcher T
  | 0 => s
  | k + 1 => (s.rounds k).loopStep

/-- Embeds the `while` loop of `match()` with its guard
`!this.done && (this.maxLoopCount <= 0 || loopCount < this.maxLoopCount)`,
run on explicit fuel.  `match()` below supplies enough fuel for the loop to
reach its real exit condition (theorem `runLoop_fuel_stable`). -/
def runLoop : Nat → Matcher T → Nat → Matcher T
  | 0, s, _ => s
  | fuel + 1, s, loopCount =>
    if s.done then s
    else if s.maxLoopCount = 0 ∨ loopCount < s.maxLoopCount then
      runLoop fuel s.runRound (loopCount + 1)
    else s

/-- Embeds `evictUnmatching()`'s callback for the vacancy at index `vi`:
when the vacancy holds a match and
`vacancyPrefersProfile(vacancy.obj, currentMatch, matchedProfile.obj)` is
false (`currentMatch` being the matched profile's own object), clear both
sides' `match`. -/
def evictStep (s : Matcher T) (vi : Nat) : Matcher T :=
  match s.wrappedVacancies[vi]? with
  | none => s
  | some v =>
    match v.«match» with
    | none => s
    | some pi =>
      match s.wrappedProfiles[pi]? with
      | none => s -- unreachable: stored match indices are in range
      | some mp =>
        if s.vacancyPrefersProfile v.obj (some mp.obj) mp.obj then s
        else
          { s with wrappedVacancies := setMatch s.wrappedVacancies vi none
                   wrappedProfiles := setMatch s.wrappedProfiles pi none }

/-- Embeds `evictUnmatching()`: the cleanup pass over all vacancy trackers. -/
def evictUnmatching (s : Matcher T) : Matcher T :=
  (List.range s.wrappedVacancies.length).foldl evictStep s

/-- An upper bound on the candidate-list length of any profile tracker; the
round loop is quiescent after `maxCand + 1` rounds (theorem `rounds_done`). -/
def maxCand (s : Matcher T) : Nat :=
  (s.wrappedProfiles.map (fun p => p.candidates.length)).foldr max 0

/-- Embeds the method `match()`: run the round loop, throw
`"Max loop count reached (infinite loop?)"` when it stopped without `done`,
otherwise run the eviction pass. -/
def «match» (s : Matcher T) : Except String (Matcher T) :=
  let s' := runLoop (s.maxCand + 1) s 0
  if s'.done then Except.ok s'.evictUnmatching
  else Except.error "Max loop count reached (infinite loop?)"

/-- Embeds the result materialization loop of `getMatches()`: one
`(vacancy.obj, matchedProfile.obj)` pair per vacancy tracker holding a match,
in vacancy order. -/
def collectMatches (s : Matcher T) : List (T × T) :=
  s.wrappedVacancies.filterMap (fun vacancy =>
    match vacancy.«match» with
    | none => none
    | some pi =>
      match s.wrappedProfiles[pi]? with
      | none => none -- unreachable: stored match indices are in range
      | some p => some (vacancy.obj, p.obj))

/-- Embeds `getMatches()`: run `match()` first unless `done` already holds,
then materialize the pair list.  The returned state is the mutated `this`. -/
def getMatches (s : Matcher T) : Except String (List (T × T) × Matcher T) :=
  if s.done then Except.ok (s.collectMatches, s)
  else
    match s.«match» with
    | Except.error e => Except.error e
    | Except.ok s' => Except.ok (s'.collectMatches, s')

/-- The profile-side match assignment, for stating invariants. -/
def profMatches (s : Matcher T) : List (Option Nat) :=
  s.wrappedProfiles.map MatchContainer.«match»

/-- The vacancy-side match assignment, for stating invariants. -/
def vacMatches (s : Matcher T) : List (Option Nat) :=
  s.wrappedVacancies.map MatchContainer.«match»

/-- Profile-to-vacancy link soundness: every profile tracker that points at a
vacancy is pointed back at by that vacancy.  (The converse direction can go
stale; see the theorems about claim C3.) -/
def ProfSym (s : Matcher T) : Prop :=
  ∀ (pi vi : Nat) (wp : MatchContainer T),
    s.wrappedProfiles[pi]? = some wp → wp.«match» = some vi →
    ∃ cv, s.wrappedVacancies[vi]? = some cv ∧ cv.«match» = some pi

end Matcher

/-- The cursor and candidate list of a tracker (the data `nextCandidate`
depends on). -/
def MatchContainer.pcl {T : Type} (c : MatchContainer T) : Nat × List T :=
  (c.currentCandidate, c.candidates)

/-- One round's effect on a profile tracker's cursor/candidates data. -/
def bumpCursor {T : Type} (x : Nat × List T) : Nat × List T :=
  if x.1 < x.2.length then (x.1 + 1, x.2) else x

end GaleShapley

/-! ### Generic list and fold helpers -/

theorem set_self_of_getElem? {α : Type _} {l : List α} {i : Nat} {a : α}
    (h : l[i]? = some a) : l.set i a = l := by
  apply List.ext_getElem?
  intro j
  by_cases hij : i = j
  · subst hij; rw [List.getElem?_set_self', h]; rfl
  · rw [List.getElem?_set_ne hij]

theorem le_foldr_max {l : List Nat} {x : Nat} (h : x ∈ l) : x ≤ l.foldr max 0 := by
  induction l with
  | nil => cases h
  | cons a t ih =>
    rcases List.mem_cons.mp h with rfl | hm
    · exact le_max_left _ _
    · exact le_trans (ih hm) (le_max_right _ _)

theorem foldl_proj_preserve {α β γ : Type _} (f : β → γ) (step : β → α → β)
    (h : ∀ s i, f (step s i) = f s) :
    ∀ (L : List α) (s : β), f (L.foldl step s) = f s := by
  intro L
  induction L with
  | nil => intro s; rfl
  | cons a t ih => intro s; rw [List.foldl_cons, ih, h]

theorem foldl_imp_preserve {α β : Type _} (P : β → Prop) (step : β → α → β)
    (h : ∀ s i, P (step s i) → P s) :
    ∀ (L : List α) (s : β), P (L.foldl step s) → P s := by
  intro L
  induction L with
  | nil => intro s hp; exact hp
  | cons a t ih => intro s hp; exact h _ _ (ih _ hp)

theorem foldl_inv_preserve {α β : Type _} (P : β → Prop) (step : β → α → β)
    (h : ∀ s i, P s → P (step s i)) :
    ∀ (L : List α) (s : β), P s → P (L.foldl step s) := by
  intro L
  induction L with
  | nil => intro s hp; exact hp
  | cons a t ih => intro s hp; exact ih _ (h _ _ hp)

namespace GaleShapley

namespace MatchContainer

variable {T : Type}

theorem nextCandidate_exhausted {c : MatchContainer T}
    (h : c.candidates.length ≤ c.currentCandidate) : c.nextCandidate = (-1, c) := by
  unfold nextCandidate
  simp [h]

theorem nextCandidate_live {c : MatchContainer T}
    (h : c.currentCandidate < c.candidates.length) :
    c.nextCandidate =
      ((c.currentCandidate : Int), { c with currentCandidate := c.currentCandidate + 1 }) := by
  unfold nextCandidate
  simp [Nat.not_le.mpr h]

end MatchContainer

namespace Matcher

variable {T : Type}

theorem setMatch_length (l : List (MatchContainer T)) (i : Nat) (m : Option Nat) :
    (setMatch l i m).length = l.length := by
  unfold setMatch
  split
  · rfl
  · rw [List.length_set]

theorem getElem?_setMatch_self {l : List (MatchContainer T)} {i : Nat} {c : MatchContainer T}
    (m : Option Nat) (h : l[i]? = some c) :
    (setMatch l i m)[i]? = some { c with «match» := m } := by
  unfold setMatch
  rw [h]
  have hi : i < l.length := (List.getElem?_eq_some.mp h).1
  rw [List.getElem?_set_eq_of_lt _ hi]

theorem getElem?_setMatch_ne {i j : Nat} (l : List (MatchContainer T)) (m : Option Nat)
    (h : i ≠ j) : (setMatch l i m)[j]? = l[j]? := by
  unfold setMatch
  split
  · rfl
  · rw [List.getElem?_set_ne h]

theorem setMatch_map {α : Type _} {f : MatchContainer T → α}
    (hf : ∀ (c : MatchContainer T) (m' : Option Nat), f { c with «match» := m' } = f c)
    (l : List (MatchContainer T)) (i : Nat) (m : Option Nat) :
    (setMatch l i m).map f = l.map f := by
  unfold setMatch
  split
  · rfl
  · rename_i c hc
    rw [List.map_set, hf]
    apply set_self_of_getElem?
    rw [List.getElem?_map, hc]
    rfl

theorem setMatch_map_obj (l : List (MatchContainer T)) (i : Nat) (m : Option Nat) :
    (setMatch l i m).map MatchContainer.obj = l.map MatchContainer.obj := by
  apply setMatch_map
  intro c m'
  rfl

theorem setMatch_map_pcl (l : List (MatchContainer T)) (i : Nat) (m : Option Nat) :
    (setMatch l i m).map MatchContainer.pcl = l.map MatchContainer.pcl := by
  apply setMatch_map
  intro c m'
  rfl

theorem getElem?_setMatch_map_pcl (l : List (MatchContainer T)) (k i : Nat) (m : Option Nat) :
    ((setMatch l k m)[i]?).map MatchContainer.pcl = (l[i]?).map MatchContainer.pcl := by
  by_cases hk : k = i
  · subst hk
    cases hl : l[k]? with
    | none => unfold setMatch; simp [hl]
    | some c => rw [getElem?_setMatch_self m hl]; rfl
  · rw [getElem?_setMatch_ne l m hk]

/-! ### `stepProfile` branch equations

One rewriting equation per control-flow branch of the `forEach` body in
`match()`, conditional on the values of the scrutinized fields. -/

theorem stepProfile_noProfile {s : Matcher T} {pi : Nat}
    (h : s.wrappedProfiles[pi]? = none) : stepProfile s pi = s := by
  unfold stepProfile
  rw [h]

theorem stepProfile_exhausted {s : Matcher T} {pi : Nat} {wp : MatchContainer T}
    (h : s.wrappedProfiles[pi]? = some wp)
    (hex : wp.candidates.length ≤ wp.currentCandidate) : stepProfile s pi = s := by
  unfold stepProfile
  rw [h]
  simp [MatchContainer.nextCandidate_exhausted hex]

theorem stepProfile_noVacancy {s : Matcher T} {pi : Nat} {wp : MatchContainer T}
    (h : s.wrappedProfiles[pi]? = some wp)
    (hlive : wp.currentCandidate < wp.candidates.length)
    (hv : s.wrappedVacancies[wp.currentCandidate]? = none) :
    stepProfile s pi =
      { s with wrappedProfiles :=
          s.wrappedProfiles.set pi { wp with currentCandidate := wp.currentCandidate + 1 } } := by
  unfold stepProfile
  rw [h]
  simp [MatchContainer.nextCandidate_live hlive, hv]

theorem stepProfile_acceptFree {s : Matcher T} {pi : Nat} {wp cv : MatchContainer T}
    (h : s.wrappedProfiles[pi]? = some wp)
    (hlive : wp.currentCandidate < wp.candidates.length)
    (hv : s.wrappedVacancies[wp.currentCandidate]? = some cv)
    (hcv : cv.«match» = none) (hwp : wp.«match» = none) :
    stepProfile s pi =
      { s with done := false
               wrappedProfiles :=
                 setMatch (s.wrappedProfiles.set pi
                   { wp with currentCandidate := wp.currentCandidate + 1 })
                   pi (some wp.currentCandidate)
               wrappedVacancies :=
                 setMatch s.wrappedVacancies wp.currentCandidate (some pi) } := by
  unfold stepProfile
  rw [h]
  simp [MatchContainer.nextCandidate_live hlive, hv, hcv, hwp]

theorem stepProfile_emptyVacMatchedProf {s : Matcher T} {pi : Nat} {wp cv : MatchContainer T}
    {vi : Nat}
    (h : s.wrappedProfiles[pi]? = some wp)
    (hlive : wp.currentCandidate < wp.candidates.length)
    (hv : s.wrappedVacancies[wp.currentCandidate]? = some cv)
    (hcv : cv.«match» = none) (hwp : wp.«match» = some vi) :
    stepProfile s pi =
      { s with done := false
               wrappedProfiles :=
                 s.wrappedProfiles.set pi
                   { wp with currentCandidate := wp.currentCandidate + 1 } } := by
  unfold stepProfile
  rw [h]
  simp [MatchContainer.nextCandidate_live hlive, hv, hcv, hwp]

theorem stepProfile_curMissing {s : Matcher T} {pi : Nat} {wp cv : MatchContainer T} {j : Nat}
    (h : s.wrappedProfiles[pi]? = some wp)
    (hlive : wp.currentCandidate < wp.candidates.length)
    (hv : s.wrappedVacancies[wp.currentCandidate]? = some cv)
    (hcv : cv.«match» = some j)
    (hj : (s.wrappedProfiles.set pi
            { wp with currentCandidate := wp.currentCandidate + 1 })[j]? = none) :
    stepProfile s pi =
      { s with wrappedProfiles :=
          s.wrappedProfiles.set pi { wp with currentCandidate := wp.currentCandidate + 1 } } := by
  unfold stepProfile
  rw [h]
  simp [MatchContainer.nextCandidate_live hlive, hv, hcv, hj]

theorem stepProfile_acceptPred {s : Matcher T} {pi : Nat} {wp cv cm : MatchContainer T} {j : Nat}
    (h : s.wrappedProfiles[pi]? = some wp)
    (hlive : wp.currentCandidate < wp.candidates.length)
    (hv : s.wrappedVacancies[wp.currentCandidate]? = some cv)
    (hcv : cv.«match» = some j)
    (hj : (s.wrappedProfiles.set pi
            { wp with currentCandidate := wp.currentCandidate + 1 })[j]? = some cm)
    (hpref : s.vacancyPrefersProfile cv.obj (some cm.obj) wp.obj = true) :
    stepProfile s pi =
      { s with done := false
               wrappedProfiles :=
                 setMatch (setMatch (s.wrappedProfiles.set pi
                     { wp with currentCandidate := wp.currentCandidate + 1 }) j none)
                   pi (some wp.currentCandidate)
               wrappedVacancies :=
                 setMatch s.wrappedVacancies wp.currentCandidate (some pi) } := by
  unfold stepProfile
  rw [h]
  simp [MatchContainer.nextCandidate_live hlive, hv, hcv, hj, hpref]

theorem map_set_eq {α β : Type _} {l : List α} {i : Nat} {a b : α} {f : α → β}
    (h : l[i]? = some a) (hf : f b = f a) : (l.set i b).map f = l.map f := by
  rw [List.map_set, hf]
  apply set_self_of_getElem?
  rw [List.getElem?_map, h]
  rfl

theorem length_eq_of_map_eq {α β : Type _} {f : α → β} {l₁ l₂ : List α}
    (h : l₁.map f = l₂.map f) : l₁.length = l₂.length := by
  have h2 := congrArg List.length h
  simpa using h2

theorem setMatch_map_cand (l : List (MatchContainer T)) (i : Nat) (m : Option Nat) :
    (setMatch l i m).map MatchContainer.candidates = l.map MatchContainer.candidates := by
  apply setMatch_map
  intro c m'
  rfl

theorem stepProfile_reject {s : Matcher T} {pi : Nat} {wp cv cm : MatchContainer T} {j : Nat}
    (h : s.wrappedProfiles[pi]? = some wp)
    (hlive : wp.currentCandidate < wp.candidates.length)
    (hv : s.wrappedVacancies[wp.currentCandidate]? = some cv)
    (hcv : cv.«match» = some j)
    (hj : (s.wrappedProfiles.set pi
            { wp with currentCandidate := wp.currentCandidate + 1 })[j]? = some cm)
    (hpref : s.vacancyPrefersProfile cv.obj (some cm.obj) wp.obj = false) :
    stepProfile s pi =
      { s with wrappedProfiles :=
          s.wrappedProfiles.set pi { wp with currentCandidate := wp.currentCandidate + 1 } } := by
  unfold stepProfile
  rw [h]
  simp [MatchContainer.nextCandidate_live hlive, hv, hcv, hj, hpref]

/-! ### `stepProfile` frame and cursor lemmas -/

theorem stepProfile_frame (s : Matcher T) (pi : Nat) :
    (stepProfile s pi).vacancyPrefersProfile = s.vacancyPrefersProfile ∧
    (stepProfile s pi).maxLoopCount = s.maxLoopCount ∧
    (stepProfile s pi).wrappedProfiles.map MatchContainer.obj
      = s.wrappedProfiles.map MatchContainer.obj ∧
    (stepProfile s pi).wrappedProfiles.map MatchContainer.candidates
      = s.wrappedProfiles.map MatchContainer.candidates ∧
    (stepProfile s pi).wrappedVacancies.map MatchContainer.obj
      = s.wrappedVacancies.map MatchContainer.obj ∧
    ((stepProfile s pi).done = true → s.done = true) := by
  cases hp : s.wrappedProfiles[pi]? with
  | none =>
    rw [stepProfile_noProfile hp]
    exact ⟨rfl, rfl, rfl, rfl, rfl, fun h => h⟩
  | some wp =>
    rcases Nat.lt_or_ge wp.currentCandidate wp.candidates.length with hlive | hex
    · cases hv : s.wrappedVacancies[wp.currentCandidate]? with
      | none =>
        rw [stepProfile_noVacancy hp hlive hv]
        exact ⟨rfl, rfl, map_set_eq hp rfl, map_set_eq hp rfl, rfl, fun h => h⟩
      | some cv =>
        cases hcv : cv.«match» with
        | none =>
          cases hwp : wp.«match» with
          | none =>
            rw [stepProfile_acceptFree hp hlive hv hcv hwp]
            refine ⟨rfl, rfl, ?_, ?_, ?_, fun h => by simp at h⟩
            · rw [setMatch_map_obj]; exact map_set_eq hp rfl
            · rw [setMatch_map_cand]; exact map_set_eq hp rfl
            · rw [setMatch_map_obj]
          | some vi =>
            rw [stepProfile_emptyVacMatchedProf hp hlive hv hcv hwp]
            exact ⟨rfl, rfl, map_set_eq hp rfl, map_set_eq hp rfl, rfl,
              fun h => by simp at h⟩
        | some j =>
          cases hj : (s.wrappedProfiles.set pi
              { wp with currentCandidate := wp.currentCandidate + 1 })[j]? with
          | none =>
            rw [stepProfile_curMissing hp hlive hv hcv hj]
            exact ⟨rfl, rfl, map_set_eq hp rfl, map_set_eq hp rfl, rfl, fun h => h⟩
          | some cm =>
            cases hpref : s.vacancyPrefersProfile cv.obj (some cm.obj) wp.obj with
            | false =>
              rw [stepProfile_reject hp hlive hv hcv hj hpref]
              exact ⟨rfl, rfl, map_set_eq hp rfl, map_set_eq hp rfl, rfl, fun h => h⟩
            | true =>
              rw [stepProfile_acceptPred hp hlive hv hcv hj hpref]
              refine ⟨rfl, rfl, ?_, ?_, ?_, fun h => by simp at h⟩
              · rw [setMatch_map_obj, setMatch_map_obj]; exact map_set_eq hp rfl
              · rw [setMatch_map_cand, setMatch_map_cand]; exact map_set_eq hp rfl
              · rw [setMatch_map_obj]
    · rw [stepProfile_exhausted hp hex]
      exact ⟨rfl, rfl, rfl, rfl, rfl, fun h => h⟩

theorem stepProfile_pred (s : Matcher T) (pi : Nat) :
    (stepProfile s pi).vacancyPrefersProfile = s.vacancyPrefersProfile :=
  (stepProfile_frame s pi).1

theorem stepProfile_cap (s : Matcher T) (pi : Nat) :
    (stepProfile s pi).maxLoopCount = s.maxLoopCount :=
  (stepProfile_frame s pi).2.1

theorem stepProfile_profObj (s : Matcher T) (pi : Nat) :
    (stepProfile s pi).wrappedProfiles.map MatchContainer.obj
      = s.wrappedProfiles.map MatchContainer.obj :=
  (stepProfile_frame s pi).2.2.1

theorem stepProfile_profCand (s : Matcher T) (pi : Nat) :
    (stepProfile s pi).wrappedProfiles.map MatchContainer.candidates
      = s.wrappedProfiles.map MatchContainer.candidates :=
  (stepProfile_frame s pi).2.2.2.1

theorem stepProfile_vacObj (s : Matcher T) (pi : Nat) :
    (stepProfile s pi).wrappedVacancies.map MatchContainer.obj
      = s.wrappedVacancies.map MatchContainer.obj :=
  (stepProfile_frame s pi).2.2.2.2.1

theorem stepProfile_done_mono (s : Matcher T) (pi : Nat) :
    (stepProfile s pi).done = true → s.done = true :=
  (stepProfile_frame s pi).2.2.2.2.2

theorem stepProfile_profLen (s : Matcher T) (pi : Nat) :
    (stepProfile s pi).wrappedProfiles.length = s.wrappedProfiles.length :=
  length_eq_of_map_eq (stepProfile_profObj s pi)

theorem stepProfile_vacLen (s : Matcher T) (pi : Nat) :
    (stepProfile s pi).wrappedVacancies.length = s.wrappedVacancies.length :=
  length_eq_of_map_eq (stepProfile_vacObj s pi)

theorem stepProfile_pcl_ne (s : Matcher T) {pi i : Nat} (hne : i ≠ pi) :
    ((stepProfile s pi).wrappedProfiles[i]?).map MatchContainer.pcl
      = (s.wrappedProfiles[i]?).map MatchContainer.pcl := by
  cases hp : s.wrappedProfiles[pi]? with
  | none => rw [stepProfile_noProfile hp]
  | some wp =>
    rcases Nat.lt_or_ge wp.currentCandidate wp.candidates.length with hlive | hex
    · cases hv : s.wrappedVacancies[wp.currentCandidate]? with
      | none =>
        rw [stepProfile_noVacancy hp hlive hv]
        rw [List.getElem?_set_ne (fun hh => hne hh.symm)]
      | some cv =>
        cases hcv : cv.«match» with
        | none =>
          cases hwp : wp.«match» with
          | none =>
            rw [stepProfile_acceptFree hp hlive hv hcv hwp]
            show ((setMatch _ pi _)[i]?).map _ = _
            rw [getElem?_setMatch_map_pcl]
            rw [List.getElem?_set_ne (fun hh => hne hh.symm)]
          | some vi =>
            rw [stepProfile_emptyVacMatchedProf hp hlive hv hcv hwp]
            rw [List.getElem?_set_ne (fun hh => hne hh.symm)]
        | some j =>
          cases hj : (s.wrappedProfiles.set pi
              { wp with currentCandidate := wp.currentCandidate + 1 })[j]? with
          | none =>
            rw [stepProfile_curMissing hp hlive hv hcv hj]
            rw [List.getElem?_set_ne (fun hh => hne hh.symm)]
          | some cm =>
            cases hpref : s.vacancyPrefersProfile cv.obj (some cm.obj) wp.obj with
            | false =>
              rw [stepProfile_reject hp hlive hv hcv hj hpref]
              rw [List.getElem?_set_ne (fun hh => hne hh.symm)]
            | true =>
              rw [stepProfile_acceptPred hp hlive hv hcv hj hpref]
              show ((setMatch (setMatch _ j none) pi _)[i]?).map _ = _
              rw [getElem?_setMatch_map_pcl, getElem?_setMatch_map_pcl]
              rw [List.getElem?_set_ne (fun hh => hne hh.symm)]
    · rw [stepProfile_exhausted hp hex]

theorem stepProfile_pcl_self (s : Matcher T) (pi : Nat) :
    ((stepProfile s pi).wrappedProfiles[pi]?).map MatchContainer.pcl
      = ((s.wrappedProfiles[pi]?).map MatchContainer.pcl).map bumpCursor := by
  cases hp : s.wrappedProfiles[pi]? with
  | none => rw [stepProfile_noProfile hp, hp]; rfl
  | some wp =>
    have hpl : pi < s.wrappedProfiles.length := (List.getElem?_eq_some.mp hp).1
    have hset : (s.wrappedProfiles.set pi
        { wp with currentCandidate := wp.currentCandidate + 1 })[pi]?
        = some { wp with currentCandidate := wp.currentCandidate + 1 } :=
      List.getElem?_set_eq_of_lt _ hpl
    rcases Nat.lt_or_ge wp.currentCandidate wp.candidates.length with hlive | hex
    · have hbump : MatchContainer.pcl { wp with currentCandidate := wp.currentCandidate + 1 }
          = bumpCursor wp.pcl := by
        unfold bumpCursor MatchContainer.pcl
        simp [hlive]
      cases hv : s.wrappedVacancies[wp.currentCandidate]? with
      | none =>
        rw [stepProfile_noVacancy hp hlive hv]
        show ((s.wrappedProfiles.set pi _)[pi]?).map _ = _
        rw [hset]
        simp [hbump]
      | some cv =>
        cases hcv : cv.«match» with
        | none =>
          cases hwp : wp.«match» with
          | none =>
            rw [stepProfile_acceptFree hp hlive hv hcv hwp]
            show ((setMatch _ pi _)[pi]?).map _ = _
            rw [getElem?_setMatch_map_pcl, hset]
            simp [hbump]
          | some vi =>
            rw [stepProfile_emptyVacMatchedProf hp hlive hv hcv hwp]
            show ((s.wrappedProfiles.set pi _)[pi]?).map _ = _
            rw [hset]
            simp [hbump]
        | some j =>
          cases hj : (s.wrappedProfiles.set pi
              { wp with currentCandidate := wp.currentCandidate + 1 })[j]? with
          | none =>
            rw [stepProfile_curMissing hp hlive hv hcv hj]
            show ((s.wrappedProfiles.set pi _)[pi]?).map _ = _
            rw [hset]
            simp [hbump]
          | some cm =>
            cases hpref : s.vacancyPrefersProfile cv.obj (some cm.obj) wp.obj with
            | false =>
              rw [stepProfile_reject hp hlive hv hcv hj hpref]
              show ((s.wrappedProfiles.set pi _)[pi]?).map _ = _
              rw [hset]
              simp [hbump]
            | true =>
              rw [stepProfile_acceptPred hp hlive hv hcv hj hpref]
              show ((setMatch (setMatch _ j none) pi _)[pi]?).map _ = _
              rw [getElem?_setMatch_map_pcl, getElem?_setMatch_map_pcl, hset]
              simp [hbump]
    · rw [stepProfile_exhausted hp hex]
      have hnb : bumpCursor wp.pcl = wp.pcl := by
        unfold bumpCursor MatchContainer.pcl
        simp [Nat.not_lt.mpr hex]
      simp [hnb, hp]

/-! ### `runRound` lemmas -/

theorem runRound_pred (s : Matcher T) :
    (runRound s).vacancyPrefersProfile = s.vacancyPrefersProfile := by
  unfold runRound
  rw [foldl_proj_preserve _ _ stepProfile_pred]

theorem runRound_cap (s : Matcher T) : (runRound s).maxLoopCount = s.maxLoopCount := by
  unfold runRound
  rw [foldl_proj_preserve _ _ stepProfile_cap]

theorem runRound_profObj (s : Matcher T) :
    (runRound s).wrappedProfiles.map MatchContainer.obj
      = s.wrappedProfiles.map MatchContainer.obj := by
  unfold runRound
  exact foldl_proj_preserve (fun (t : Matcher T) => t.wrappedProfiles.map MatchContainer.obj) _
    stepProfile_profObj _ _

theorem runRound_profCand (s : Matcher T) :
    (runRound s).wrappedProfiles.map MatchContainer.candidates
      = s.wrappedProfiles.map MatchContainer.candidates := by
  unfold runRound
  exact foldl_proj_preserve (fun (t : Matcher T) => t.wrappedProfiles.map MatchContainer.candidates) _
    stepProfile_profCand _ _

theorem runRound_vacObj (s : Matcher T) :
    (runRound s).wrappedVacancies.map MatchContainer.obj
      = s.wrappedVacancies.map MatchContainer.obj := by
  unfold runRound
  exact foldl_proj_preserve (fun (t : Matcher T) => t.wrappedVacancies.map MatchContainer.obj) _
    stepProfile_vacObj _ _

theorem runRound_profLen (s : Matcher T) :
    (runRound s).wrappedProfiles.length = s.wrappedProfiles.length :=
  length_eq_of_map_eq (runRound_profObj s)

theorem runRound_vacLen (s : Matcher T) :
    (runRound s).wrappedVacancies.length = s.wrappedVacancies.length :=
  length_eq_of_map_eq (runRound_vacObj s)

theorem foldl_step_done_mono (L : List Nat) (s : Matcher T) :
    (L.foldl stepProfile s).done = true → s.done = true :=
  foldl_imp_preserve (fun t => t.done = true) stepProfile stepProfile_done_mono L s

theorem foldl_range_pcl (n : Nat) :
    ∀ (s : Matcher T) (i : Nat),
    (((List.range n).foldl stepProfile s).wrappedProfiles[i]?).map MatchContainer.pcl
      = if i < n then ((s.wrappedProfiles[i]?).map MatchContainer.pcl).map bumpCursor
        else (s.wrappedProfiles[i]?).map MatchContainer.pcl := by
  induction n with
  | zero => intro s i; simp
  | succ n ih =>
    intro s i
    rw [List.range_succ, List.foldl_append]
    simp only [List.foldl_cons, List.foldl_nil]
    by_cases hin : i = n
    · subst hin
      rw [stepProfile_pcl_self, ih]
      simp
    · rcases Nat.lt_or_ge i n with hlt | hge
      · rw [stepProfile_pcl_ne _ hin, ih]
        simp [hlt, Nat.lt_succ_of_lt hlt]
      · have h1 : ¬ i < n := Nat.not_lt.mpr hge
        have h2 : ¬ i < n + 1 := by omega
        rw [stepProfile_pcl_ne _ hin, ih]
        simp [h1, h2]

theorem runRound_pcl (s : Matcher T) (i : Nat) :
    ((runRound s).wrappedProfiles[i]?).map MatchContainer.pcl
      = ((s.wrappedProfiles[i]?).map MatchContainer.pcl).map bumpCursor := by
  unfold runRound
  rw [foldl_range_pcl]
  by_cases h : i < s.wrappedProfiles.length
  · simp [h]
  · have hn : s.wrappedProfiles[i]? = none := List.getElem?_eq_none (Nat.not_lt.mp h)
    simp [h, hn]

theorem runRound_exhausted (s : Matcher T)
    (h : ∀ (i : Nat) (wp : MatchContainer T), s.wrappedProfiles[i]? = some wp →
      wp.candidates.length ≤ wp.currentCandidate) :
    runRound s = { s with done := true } := by
  unfold runRound
  have key : ∀ (L : List Nat) (t : Matcher T),
      (∀ (i : Nat) (wp : MatchContainer T), t.wrappedProfiles[i]? = some wp →
        wp.candidates.length ≤ wp.currentCandidate) →
      L.foldl stepProfile t = t := by
    intro L
    induction L with
    | nil => intro t _; rfl
    | cons a L ihL =>
      intro t ht
      rw [List.foldl_cons]
      have hstep : stepProfile t a = t := by
        cases hp : t.wrappedProfiles[a]? with
        | none => exact stepProfile_noProfile hp
        | some wp => exact stepProfile_exhausted hp (ht a wp hp)
      rw [hstep]
      exact ihL t ht
  exact key _ _ (fun i wp hw => h i wp hw)

/-! ### `loopStep` and `rounds` lemmas -/

theorem loopStep_of_done {s : Matcher T} (h : s.done = true) : s.loopStep = s := by
  unfold loopStep
  simp [h]

theorem loopStep_of_not_done {s : Matcher T} (h : s.done = false) :
    s.loopStep = s.runRound := by
  unfold loopStep
  simp [h]

theorem rounds_add (s : Matcher T) (k m : Nat) :
    s.rounds (k + m) = (s.rounds k).rounds m := by
  induction m with
  | zero => rfl
  | succ m ih => rw [← Nat.add_assoc]; unfold rounds; rw [ih]

theorem rounds_of_done {s : Matcher T} (h : s.done = true) (m : Nat) :
    s.rounds m = s := by
  induction m with
  | zero => rfl
  | succ m ih => unfold rounds; rw [ih, loopStep_of_done h]

theorem rounds_stable {s : Matcher T} {k : Nat} (h : (s.rounds k).done = true) (m : Nat) :
    s.rounds (k + m) = s.rounds k := by
  rw [rounds_add]
  exact rounds_of_done h m

theorem loopStep_pred (s : Matcher T) :
    s.loopStep.vacancyPrefersProfile = s.vacancyPrefersProfile := by
  unfold loopStep
  split
  · rfl
  · exact runRound_pred s

theorem loopStep_cap (s : Matcher T) : s.loopStep.maxLoopCount = s.maxLoopCount := by
  unfold loopStep
  split
  · rfl
  · exact runRound_cap s

theorem loopStep_profObj (s : Matcher T) :
    s.loopStep.wrappedProfiles.map MatchContainer.obj
      = s.wrappedProfiles.map MatchContainer.obj := by
  unfold loopStep
  split
  · rfl
  · exact runRound_profObj s

theorem loopStep_profCand (s : Matcher T) :
    s.loopStep.wrappedProfiles.map MatchContainer.candidates
      = s.wrappedProfiles.map MatchContainer.candidates := by
  unfold loopStep
  split
  · rfl
  · exact runRound_profCand s

theorem loopStep_vacObj (s : Matcher T) :
    s.loopStep.wrappedVacancies.map MatchContainer.obj
      = s.wrappedVacancies.map MatchContainer.obj := by
  unfold loopStep
  split
  · rfl
  · exact runRound_vacObj s

theorem rounds_pred (s : Matcher T) (k : Nat) :
    (s.rounds k).vacancyPrefersProfile = s.vacancyPrefersProfile := by
  induction k with
  | zero => rfl
  | succ k ih => unfold rounds; rw [loopStep_pred, ih]

theorem rounds_cap (s : Matcher T) (k : Nat) :
    (s.rounds k).maxLoopCount = s.maxLoopCount := by
  induction k with
  | zero => rfl
  | succ k ih => unfold rounds; rw [loopStep_cap, ih]

theorem rounds_profObj (s : Matcher T) (k : Nat) :
    (s.rounds k).wrappedProfiles.map MatchContainer.obj
      = s.wrappedProfiles.map MatchContainer.obj := by
  induction k with
  | zero => rfl
  | succ k ih => unfold rounds; rw [loopStep_profObj, ih]

theorem rounds_profCand (s : Matcher T) (k : Nat) :
    (s.rounds k).wrappedProfiles.map MatchContainer.candidates
      = s.wrappedProfiles.map MatchContainer.candidates := by
  induction k with
  | zero => rfl
  | succ k ih => unfold rounds; rw [loopStep_profCand, ih]

theorem rounds_vacObj (s : Matcher T) (k : Nat) :
    (s.rounds k).wrappedVacancies.map MatchContainer.obj
      = s.wrappedVacancies.map MatchContainer.obj := by
  induction k with
  | zero => rfl
  | succ k ih => unfold rounds; rw [loopStep_vacObj, ih]

theorem rounds_profLen (s : Matcher T) (k : Nat) :
    (s.rounds k).wrappedProfiles.length = s.wrappedProfiles.length :=
  length_eq_of_map_eq (rounds_profObj s k)

theorem rounds_vacLen (s : Matcher T) (k : Nat) :
    (s.rounds k).wrappedVacancies.length = s.wrappedVacancies.length :=
  length_eq_of_map_eq (rounds_vacObj s k)

/-! ### Termination of the round loop -/

theorem bumpCursor_iterate_snd {S : Type} (x : Nat × List S) (k : Nat) :
    (bumpCursor^[k] x).2 = x.2 := by
  induction k with
  | zero => rfl
  | succ k ih =>
    rw [Function.iterate_succ_apply']
    unfold bumpCursor
    split
    · exact ih
    · exact ih

theorem bumpCursor_iterate_fst {S : Type} (x : Nat × List S) (k : Nat) :
    min (x.1 + k) x.2.length ≤ (bumpCursor^[k] x).1 := by
  induction k with
  | zero => simp
  | succ k ih =>
    rw [Function.iterate_succ_apply']
    have hsnd := bumpCursor_iterate_snd x k
    generalize hy : bumpCursor^[k] x = y at ih hsnd ⊢
    by_cases hlt : y.1 < y.2.length
    · have hb : bumpCursor y = (y.1 + 1, y.2) := by
        unfold bumpCursor
        simp [hlt]
      rw [hb]
      rw [hsnd] at hlt
      show min (x.1 + (k + 1)) x.2.length ≤ y.1 + 1
      omega
    · have hb : bumpCursor y = y := by
        unfold bumpCursor
        simp [hlt]
      rw [hb]
      rw [hsnd] at hlt
      omega

theorem maxCand_le {s : Matcher T} {c : MatchContainer T} {i : Nat}
    (h : s.wrappedProfiles[i]? = some c) : c.candidates.length ≤ s.maxCand := by
  unfold maxCand
  apply le_foldr_max
  rcases List.getElem?_eq_some.mp h with ⟨hlt, heq⟩
  exact List.mem_map_of_mem _ (heq ▸ List.getElem_mem hlt)

theorem rounds_pcl_or (s : Matcher T) (k : Nat) :
    (∃ j, j ≤ k ∧ (s.rounds j).done = true) ∨
      (∀ i : Nat, ((s.rounds k).wrappedProfiles[i]?).map MatchContainer.pcl
        = ((s.wrappedProfiles[i]?).map MatchContainer.pcl).map (bumpCursor^[k])) := by
  induction k with
  | zero =>
    right
    intro i
    simp [rounds]
  | succ k ih =>
    rcases ih with ⟨j, hj, hd⟩ | hpcl
    · exact Or.inl ⟨j, Nat.le_succ_of_le hj, hd⟩
    · by_cases hd : (s.rounds k).done = true
      · exact Or.inl ⟨k, Nat.le_succ k, hd⟩
      · right
        intro i
        have hfd : (s.rounds k).done = false := Bool.eq_false_iff.mpr hd
        show (((s.rounds k).loopStep).wrappedProfiles[i]?).map MatchContainer.pcl = _
        rw [loopStep_of_not_done hfd, runRound_pcl, hpcl i]
        rw [Function.iterate_succ', Option.map_map]

theorem rounds_done (s : Matcher T) : (s.rounds (s.maxCand + 1)).done = true := by
  rcases rounds_pcl_or s s.maxCand with ⟨j, hj, hd⟩ | hpcl
  · have heq : s.rounds (s.maxCand + 1) = s.rounds j := by
      have h2 : s.rounds (j + (s.maxCand + 1 - j)) = s.rounds j := rounds_stable hd _
      rw [← h2]
      congr 1
      omega
    rw [heq]
    exact hd
  · have hex : ∀ (i : Nat) (wp : MatchContainer T),
        (s.rounds s.maxCand).wrappedProfiles[i]? = some wp →
        wp.candidates.length ≤ wp.currentCandidate := by
      intro i wp hw
      have hp := hpcl i
      rw [hw] at hp
      cases hs : s.wrappedProfiles[i]? with
      | none => rw [hs] at hp; simp at hp
      | some c =>
        rw [hs] at hp
        simp only [Option.map_some'] at hp
        have hp' : wp.pcl = bumpCursor^[s.maxCand] c.pcl := Option.some.inj hp
        have hlen : c.candidates.length ≤ s.maxCand := maxCand_le hs
        have h2 : wp.candidates = c.candidates := by
          have h4 := congrArg Prod.snd hp'
          rw [bumpCursor_iterate_snd] at h4
          exact h4
        have h3 : min (c.currentCandidate + s.maxCand) c.candidates.length
            ≤ wp.currentCandidate := by
          have h5 := bumpCursor_iterate_fst c.pcl s.maxCand
          rw [← hp'] at h5
          exact h5
        rw [h2]
        omega
    show ((s.rounds s.maxCand).loopStep).done = true
    by_cases hdK : (s.rounds s.maxCand).done = true
    · rw [loopStep_of_done hdK]
      exact hdK
    · rw [loopStep_of_not_done (Bool.eq_false_iff.mpr hdK), runRound_exhausted _ hex]

/-! ### The `while` loop of `match()` -/

theorem rounds_succ_front (s : Matcher T) (k : Nat) :
    s.rounds (k + 1) = s.loopStep.rounds k := by
  induction k with
  | zero => rfl
  | succ k ih =>
    show (s.rounds (k + 1)).loopStep = (s.loopStep.rounds k).loopStep
    rw [ih]

theorem rounds_ge (s : Matcher T) {N : Nat} (h : s.maxCand + 1 ≤ N) :
    s.rounds N = s.rounds (s.maxCand + 1) := by
  have h2 := rounds_stable (rounds_done s) (N - (s.maxCand + 1))
  rw [← h2]
  congr 1
  omega

theorem runLoop_zero_cap :
    ∀ (f : Nat) (s : Matcher T) (lc : Nat), s.maxLoopCount = 0 →
    runLoop f s lc = s.rounds f := by
  intro f
  induction f with
  | zero => intro s lc _; rfl
  | succ f ih =>
    intro s lc h
    unfold runLoop
    by_cases hd : s.done = true
    · rw [if_pos hd, rounds_of_done hd]
    · rw [if_neg hd, if_pos (Or.inl h)]
      rw [ih _ _ (by rw [runRound_cap]; exact h)]
      rw [rounds_succ_front, loopStep_of_not_done (Bool.eq_false_iff.mpr hd)]

theorem runLoop_pos_cap :
    ∀ (f : Nat) (s : Matcher T) (lc : Nat), 0 < s.maxLoopCount →
    runLoop f s lc = s.rounds (min f (s.maxLoopCount - lc)) := by
  intro f
  induction f with
  | zero =>
    intro s lc _
    have hm0 : min 0 (s.maxLoopCount - lc) = 0 := by omega
    rw [hm0]
    rfl
  | succ f ih =>
    intro s lc h
    unfold runLoop
    by_cases hd : s.done = true
    · rw [if_pos hd, rounds_of_done hd]
    · rw [if_neg hd]
      by_cases hlc : lc < s.maxLoopCount
      · rw [if_pos (Or.inr hlc)]
        rw [ih _ _ (by rw [runRound_cap]; exact h)]
        rw [runRound_cap]
        have hmin : min (f + 1) (s.maxLoopCount - lc)
            = min f (s.maxLoopCount - (lc + 1)) + 1 := by omega
        rw [hmin, rounds_succ_front, loopStep_of_not_done (Bool.eq_false_iff.mpr hd)]
      · have hcl : ¬ (s.maxLoopCount = 0 ∨ lc < s.maxLoopCount) := by omega
        rw [if_neg hcl]
        have hm0 : min (f + 1) (s.maxLoopCount - lc) = 0 := by omega
        rw [hm0]
        rfl

theorem runLoop_fuel_stable (s : Matcher T) (k : Nat) :
    runLoop (s.maxCand + 1 + k) s 0 = runLoop (s.maxCand + 1) s 0 := by
  by_cases hc : s.maxLoopCount = 0
  · rw [runLoop_zero_cap _ _ _ hc, runLoop_zero_cap _ _ _ hc]
    exact rounds_ge s (by omega)
  · have hpos : 0 < s.maxLoopCount := Nat.pos_of_ne_zero hc
    rw [runLoop_pos_cap _ _ _ hpos, runLoop_pos_cap _ _ _ hpos]
    rcases Nat.lt_or_ge s.maxCand (s.maxLoopCount - 0) with hlt | hge
    · have ha : s.maxCand + 1 ≤ min (s.maxCand + 1 + k) (s.maxLoopCount - 0) := by omega
      have hb : min (s.maxCand + 1) (s.maxLoopCount - 0) = s.maxCand + 1 := by omega
      rw [hb]
      exact rounds_ge s ha
    · have hb : min (s.maxCand + 1 + k) (s.maxLoopCount - 0)
          = min (s.maxCand + 1) (s.maxLoopCount - 0) := by omega
      rw [hb]

theorem runLoop_done_iff (s : Matcher T) :
    (runLoop (s.maxCand + 1) s 0).done = false ↔
      (0 < s.maxLoopCount ∧ (s.rounds s.maxLoopCount).done = false) := by
  by_cases hc : s.maxLoopCount = 0
  · rw [runLoop_zero_cap _ _ _ hc]
    rw [rounds_done s]
    simp [hc]
  · have hpos : 0 < s.maxLoopCount := Nat.pos_of_ne_zero hc
    rw [runLoop_pos_cap _ _ _ hpos]
    rcases Nat.lt_or_ge (s.maxCand + 1) (s.maxLoopCount - 0) with hlt | hge
    · have hb : min (s.maxCand + 1) (s.maxLoopCount - 0) = s.maxCand + 1 := by omega
      rw [hb, rounds_done s]
      have hdone : (s.rounds s.maxLoopCount).done = true := by
        rw [rounds_ge s (by omega)]
        exact rounds_done s
      rw [hdone]
      simp
    · have hb : min (s.maxCand + 1) (s.maxLoopCount - 0) = s.maxLoopCount := by omega
      rw [hb]
      simp [hpos]

theorem match_error_iff (s : Matcher T) (e : String) :
    s.«match» = Except.error e ↔
      (e = "Max loop count reached (infinite loop?)" ∧
        0 < s.maxLoopCount ∧ (s.rounds s.maxLoopCount).done = false) := by
  unfold «match»
  cases hd : (runLoop (s.maxCand + 1) s 0).done with
  | true =>
    have hnot := (not_iff_not.mpr (runLoop_done_iff s)).mp (by rw [hd]; simp)
    rw [if_pos hd]
    constructor
    · intro h; cases h
    · intro ⟨_, h2, h3⟩; exact absurd ⟨h2, h3⟩ hnot
  | false =>
    have hr := (runLoop_done_iff s).mp hd
    rw [if_neg (by rw [hd]; simp)]
    constructor
    · intro h
      refine ⟨?_, hr.1, hr.2⟩
      have := Except.error.inj h
      exact this.symm
    · intro ⟨h1, _, _⟩
      rw [h1]

theorem match_ok_iff (s : Matcher T) (s' : Matcher T) :
    s.«match» = Except.ok s' ↔
      ((runLoop (s.maxCand + 1) s 0).done = true ∧
        s' = (runLoop (s.maxCand + 1) s 0).evictUnmatching) := by
  unfold «match»
  cases hd : (runLoop (s.maxCand + 1) s 0).done with
  | true =>
    rw [if_pos hd]
    constructor
    · intro h
      exact ⟨rfl, (Except.ok.inj h).symm⟩
    · intro ⟨_, h2⟩
      rw [h2]
  | false =>
    rw [if_neg (by rw [hd]; simp)]
    constructor
    · intro h; cases h
    · intro ⟨h1, _⟩; cases h1

/-! ### Eviction pass lemmas -/

theorem evictStep_noVac {s : Matcher T} {vi : Nat}
    (hv : s.wrappedVacancies[vi]? = none) : evictStep s vi = s := by
  unfold evictStep
  rw [hv]

theorem evictStep_noMatch {s : Matcher T} {vi : Nat} {v : MatchContainer T}
    (hv : s.wrappedVacancies[vi]? = some v) (hm : v.«match» = none) :
    evictStep s vi = s := by
  unfold evictStep
  simp [hv, hm]

theorem evictStep_noProf {s : Matcher T} {vi : Nat} {v : MatchContainer T} {pi : Nat}
    (hv : s.wrappedVacancies[vi]? = some v) (hm : v.«match» = some pi)
    (hp : s.wrappedProfiles[pi]? = none) : evictStep s vi = s := by
  unfold evictStep
  simp [hv, hm, hp]

theorem evictStep_keep {s : Matcher T} {vi : Nat} {v mp : MatchContainer T} {pi : Nat}
    (hv : s.wrappedVacancies[vi]? = some v) (hm : v.«match» = some pi)
    (hp : s.wrappedProfiles[pi]? = some mp)
    (hpref : s.vacancyPrefersProfile v.obj (some mp.obj) mp.obj = true) :
    evictStep s vi = s := by
  unfold evictStep
  simp [hv, hm, hp, hpref]

theorem evictStep_evict {s : Matcher T} {vi : Nat} {v mp : MatchContainer T} {pi : Nat}
    (hv : s.wrappedVacancies[vi]? = some v) (hm : v.«match» = some pi)
    (hp : s.wrappedProfiles[pi]? = some mp)
    (hpref : s.vacancyPrefersProfile v.obj (some mp.obj) mp.obj = false) :
    evictStep s vi =
      { s with wrappedVacancies := setMatch s.wrappedVacancies vi none
               wrappedProfiles := setMatch s.wrappedProfiles pi none } := by
  unfold evictStep
  simp [hv, hm, hp, hpref]

theorem evictStep_frame (s : Matcher T) (vi : Nat) :
    (evictStep s vi).vacancyPrefersProfile = s.vacancyPrefersProfile ∧
    (evictStep s vi).done = s.done ∧
    (evictStep s vi).maxLoopCount = s.maxLoopCount ∧
    (evictStep s vi).wrappedProfiles.map MatchContainer.obj
      = s.wrappedProfiles.map MatchContainer.obj ∧
    (evictStep s vi).wrappedVacancies.map MatchContainer.obj
      = s.wrappedVacancies.map MatchContainer.obj := by
  cases hv : s.wrappedVacancies[vi]? with
  | none => rw [evictStep_noVac hv]; exact ⟨rfl, rfl, rfl, rfl, rfl⟩
  | some v =>
    cases hm : v.«match» with
    | none => rw [evictStep_noMatch hv hm]; exact ⟨rfl, rfl, rfl, rfl, rfl⟩
    | some pi =>
      cases hp : s.wrappedProfiles[pi]? with
      | none => rw [evictStep_noProf hv hm hp]; exact ⟨rfl, rfl, rfl, rfl, rfl⟩
      | some mp =>
        cases hpref : s.vacancyPrefersProfile v.obj (some mp.obj) mp.obj with
        | true => rw [evictStep_keep hv hm hp hpref]; exact ⟨rfl, rfl, rfl, rfl, rfl⟩
        | false =>
          rw [evictStep_evict hv hm hp hpref]
          exact ⟨rfl, rfl, rfl, setMatch_map_obj _ _ _, setMatch_map_obj _ _ _⟩

theorem evictUnmatching_pred (s : Matcher T) :
    s.evictUnmatching.vacancyPrefersProfile = s.vacancyPrefersProfile := by
  unfold evictUnmatching
  exact foldl_proj_preserve (fun (t : Matcher T) => t.vacancyPrefersProfile) _
    (fun t i => (evictStep_frame t i).1) _ _

theorem evictUnmatching_done (s : Matcher T) : s.evictUnmatching.done = s.done := by
  unfold evictUnmatching
  exact foldl_proj_preserve (fun (t : Matcher T) => t.done) _
    (fun t i => (evictStep_frame t i).2.1) _ _

theorem evictUnmatching_profObj (s : Matcher T) :
    s.evictUnmatching.wrappedProfiles.map MatchContainer.obj
      = s.wrappedProfiles.map MatchContainer.obj := by
  unfold evictUnmatching
  exact foldl_proj_preserve (fun (t : Matcher T) => t.wrappedProfiles.map MatchContainer.obj) _
    (fun t i => (evictStep_frame t i).2.2.2.1) _ _

theorem evictUnmatching_vacObj (s : Matcher T) :
    s.evictUnmatching.wrappedVacancies.map MatchContainer.obj
      = s.wrappedVacancies.map MatchContainer.obj := by
  unfold evictUnmatching
  exact foldl_proj_preserve (fun (t : Matcher T) => t.wrappedVacancies.map MatchContainer.obj) _
    (fun t i => (evictStep_frame t i).2.2.2.2) _ _

/-- After the eviction pass, the vacancy at index `vi` either holds no match or
holds one the predicate endorses under the self-comparison convention. -/
def goodAt (s : Matcher T) (vi : Nat) : Prop :=
  ∀ v : MatchContainer T, s.wrappedVacancies[vi]? = some v →
    ∀ pi : Nat, v.«match» = some pi →
    ∀ p : MatchContainer T, s.wrappedProfiles[pi]? = some p →
    s.vacancyPrefersProfile v.obj (some p.obj) p.obj = true

theorem evictStep_goodAt_self (s : Matcher T) (vi : Nat) : goodAt (evictStep s vi) vi := by
  cases hv : s.wrappedVacancies[vi]? with
  | none =>
    rw [evictStep_noVac hv]
    intro v hv2
    rw [hv] at hv2
    cases hv2
  | some v =>
    cases hm : v.«match» with
    | none =>
      rw [evictStep_noMatch hv hm]
      intro v2 hv2 pi hm2
      rw [hv] at hv2
      cases hv2
      rw [hm] at hm2
      cases hm2
    | some pi =>
      cases hp : s.wrappedProfiles[pi]? with
      | none =>
        rw [evictStep_noProf hv hm hp]
        intro v2 hv2 pi2 hm2 p hp2
        rw [hv] at hv2
        cases hv2
        rw [hm] at hm2
        cases hm2
        rw [hp] at hp2
        cases hp2
      | some mp =>
        cases hpref : s.vacancyPrefersProfile v.obj (some mp.obj) mp.obj with
        | true =>
          rw [evictStep_keep hv hm hp hpref]
          intro v2 hv2 pi2 hm2 p hp2
          rw [hv] at hv2
          cases hv2
          rw [hm] at hm2
          cases hm2
          rw [hp] at hp2
          cases hp2
          exact hpref
        | false =>
          rw [evictStep_evict hv hm hp hpref]
          intro v2 hv2 pi2 hm2 p hp2
          have hv3 : (setMatch s.wrappedVacancies vi none)[vi]?
              = some { v with «match» := none } := getElem?_setMatch_self none hv
          rw [hv3] at hv2
          cases hv2
          cases hm2

theorem evictStep_goodAt_other (s : Matcher T) {vi vj : Nat} (hne : vj ≠ vi)
    (hg : goodAt s vi) : goodAt (evictStep s vj) vi := by
  cases hv : s.wrappedVacancies[vj]? with
  | none => rw [evictStep_noVac hv]; exact hg
  | some v =>
    cases hm : v.«match» with
    | none => rw [evictStep_noMatch hv hm]; exact hg
    | some pj =>
      cases hp : s.wrappedProfiles[pj]? with
      | none => rw [evictStep_noProf hv hm hp]; exact hg
      | some mp =>
        cases hpref : s.vacancyPrefersProfile v.obj (some mp.obj) mp.obj with
        | true => rw [evictStep_keep hv hm hp hpref]; exact hg
        | false =>
          rw [evictStep_evict hv hm hp hpref]
          intro v2 hv2 pi2 hm2 p hp2
          rw [getElem?_setMatch_ne _ _ hne] at hv2
          by_cases hpij : pj = pi2
          · subst hpij
            rw [getElem?_setMatch_self none hp] at hp2
            cases hp2
            exact hg v2 hv2 pj hm2 mp hp
          · rw [getElem?_setMatch_ne _ _ hpij] at hp2
            exact hg v2 hv2 pi2 hm2 p hp2

theorem foldl_evictStep_goodAt :
    ∀ (L : List Nat) (s : Matcher T) (vi : Nat), (vi ∈ L ∨ goodAt s vi) →
    goodAt (L.foldl evictStep s) vi := by
  intro L
  induction L with
  | nil =>
    intro s vi h
    rcases h with h | h
    · cases h
    · exact h
  | cons a L ih =>
    intro s vi h
    rw [List.foldl_cons]
    rcases h with h | h
    · rcases List.mem_cons.mp h with rfl | hmem
      · exact ih _ _ (Or.inr (evictStep_goodAt_self s vi))
      · exact ih _ _ (Or.inl hmem)
    · by_cases hai : a = vi
      · subst hai
        exact ih _ _ (Or.inr (evictStep_goodAt_self s a))
      · exact ih _ _ (Or.inr (evictStep_goodAt_other s hai h))

theorem evictUnmatching_goodAt (s : Matcher T) (vi : Nat) :
    goodAt s.evictUnmatching vi := by
  unfold evictUnmatching
  by_cases hlt : vi < s.wrappedVacancies.length
  · exact foldl_evictStep_goodAt _ _ _ (Or.inl (List.mem_range.mpr hlt))
  · apply foldl_evictStep_goodAt
    right
    intro v hv2
    rw [List.getElem?_eq_none (Nat.not_lt.mp hlt)] at hv2
    cases hv2

theorem mem_collectMatches {s : Matcher T} {v p : T}
    (h : (v, p) ∈ s.collectMatches) :
    ∃ (vi : Nat) (vc : MatchContainer T) (pi : Nat) (pc : MatchContainer T),
      s.wrappedVacancies[vi]? = some vc ∧ vc.«match» = some pi ∧
      s.wrappedProfiles[pi]? = some pc ∧ v = vc.obj ∧ p = pc.obj := by
  unfold collectMatches at h
  rcases List.mem_filterMap.mp h with ⟨vc, hmem, heq⟩
  rcases List.mem_iff_getElem?.mp hmem with ⟨vi, hvi⟩
  cases hm : vc.«match» with
  | none => simp [hm] at heq
  | some pi =>
    simp only [hm] at heq
    cases hp : s.wrappedProfiles[pi]? with
    | none => simp [hp] at heq
    | some pc =>
      simp only [hp] at heq
      have hpair := Option.some.inj heq
      exact ⟨vi, vc, pi, pc, hvi, hm, hp,
        (congrArg Prod.fst hpair).symm, (congrArg Prod.snd hpair).symm⟩

theorem runLoop_pred : ∀ (f : Nat) (s : Matcher T) (lc : Nat),
    (runLoop f s lc).vacancyPrefersProfile = s.vacancyPrefersProfile := by
  intro f
  induction f with
  | zero => intro s lc; rfl
  | succ f ih =>
    intro s lc
    unfold runLoop
    by_cases hd : s.done = true
    · rw [if_pos hd]
    · rw [if_neg hd]
      split
      · rw [ih, runRound_pred]
      · rfl

theorem runLoop_profObj : ∀ (f : Nat) (s : Matcher T) (lc : Nat),
    (runLoop f s lc).wrappedProfiles.map MatchContainer.obj
      = s.wrappedProfiles.map MatchContainer.obj := by
  intro f
  induction f with
  | zero => intro s lc; rfl
  | succ f ih =>
    intro s lc
    unfold runLoop
    by_cases hd : s.done = true
    · rw [if_pos hd]
    · rw [if_neg hd]
      split
      · rw [ih, runRound_profObj]
      · rfl

theorem runLoop_vacObj : ∀ (f : Nat) (s : Matcher T) (lc : Nat),
    (runLoop f s lc).wrappedVacancies.map MatchContainer.obj
      = s.wrappedVacancies.map MatchContainer.obj := by
  intro f
  induction f with
  | zero => intro s lc; rfl
  | succ f ih =>
    intro s lc
    unfold runLoop
    by_cases hd : s.done = true
    · rw [if_pos hd]
    · rw [if_neg hd]
      split
      · rw [ih, runRound_vacObj]
      · rfl

theorem getMatches_done {s : Matcher T} (h : s.done = true) :
    s.getMatches = Except.ok (s.collectMatches, s) := by
  unfold getMatches
  rw [if_pos h]

theorem getMatches_not_done {s : Matcher T} (h : s.done = false) :
    s.getMatches = match s.«match» with
      | Except.error e => Except.error e
      | Except.ok s' => Except.ok (s'.collectMatches, s') := by
  unfold getMatches
  rw [if_neg (by rw [h]; simp)]

theorem new_done (profiles vacancies : List T)
    (pred : T → Option T → T → Bool) (cap : Nat) :
    (new profiles vacancies pred cap).done = false := rfl

theorem foldr_max_le {l : List Nat} {b : Nat} (h : ∀ x ∈ l, x ≤ b) :
    l.foldr max 0 ≤ b := by
  induction l with
  | nil => exact Nat.zero_le b
  | cons a t ih =>
    exact max_le (h a (List.mem_cons_self a t)) (ih (fun x hx => h x (List.mem_cons_of_mem a hx)))

theorem maxCand_new (profiles vacancies : List T)
    (pred : T → Option T → T → Bool) (cap : Nat) :
    (new profiles vacancies pred cap).maxCand ≤ vacancies.length := by
  unfold new maxCand
  apply foldr_max_le
  intro x hx
  simp only [List.map_map, List.mem_map] at hx
  rcases hx with ⟨item, _, hfx⟩
  rw [← hfx]
  exact Nat.le_refl _

end Matcher

/-! ### Claim theorems -/

theorem advance_iterate {T : Type} (o : T) (cands : List T) (k : Nat) :
    MatchContainer.advance^[k] (MatchContainer.new o cands)
      = { obj := o, «match» := none, currentCandidate := min k cands.length,
          candidates := cands } := by
  induction k with
  | zero =>
    rw [Nat.zero_min]
    rfl
  | succ k ih =>
    rw [Function.iterate_succ_apply', ih]
    unfold MatchContainer.advance MatchContainer.nextCandidate
    by_cases h : cands.length ≤ min k cands.length
    · rw [if_pos h]
      have hmin : min (k + 1) cands.length = min k cands.length := by omega
      rw [hmin]
    · rw [if_neg h]
      have hmin : min (k + 1) cands.length = min k cands.length + 1 := by omega
      rw [hmin]

/-- C1: for every run of the engine that returns a result, every pair `(v, p)`
in the returned sequence satisfies `predicate v (some p) p = true`: the
eviction pass clears both sides of any pairing failing this self-comparison,
so no pair survives that the predicate would reject. -/
theorem claim_C1 {T : Type} (profiles vacancies : List T)
    (pred : T → Option T → T → Bool) (cap : Nat) (result : List (T × T))
    (hrun : ((Matcher.new profiles vacancies pred cap).getMatches).toOption.map Prod.fst
      = some result)
    (v p : T) (hmem : (v, p) ∈ result) : pred v (some p) p = true := by
  rw [Matcher.getMatches_not_done (Matcher.new_done profiles vacancies pred cap)] at hrun
  cases hm : (Matcher.new profiles vacancies pred cap).«match» with
  | error e => simp [hm, Except.toOption] at hrun
  | ok s2 =>
    simp only [hm, Except.toOption, Option.map_some'] at hrun
    have hres : s2.collectMatches = result := Option.some.inj hrun
    rcases (Matcher.match_ok_iff _ _).mp hm with ⟨hdone, hs2⟩
    rw [← hres] at hmem
    rcases Matcher.mem_collectMatches hmem with ⟨vi, vc, pi, pc, hvi, hmvc, hpi, hveq, hpeq⟩
    have hg : Matcher.goodAt s2 vi := by
      rw [hs2]
      exact Matcher.evictUnmatching_goodAt _ vi
    have hpred := hg vc hvi pi hmvc pc hpi
    have hpredeq : s2.vacancyPrefersProfile = pred := by
      rw [hs2, Matcher.evictUnmatching_pred, Matcher.runLoop_pred]
      rfl
    rw [hpredeq] at hpred
    rw [hveq, hpeq]
    exact hpred

set_option maxHeartbeats 1000000 in
/-- Witness for C1: a concrete run (one profile `5`, one vacancy `7`,
always-true predicate) returning the pair `(7, 5)`. -/
theorem claim_C1_witness :
    (fun (_ : Nat) (_ : Option Nat) (_ : Nat) => true) 7 (some 5) 5 = true := by
  have h : ((Matcher.new [5] [7]
      (fun (_ : Nat) (_ : Option Nat) (_ : Nat) => true) 0).getMatches).toOption.map
      Prod.fst = some [(7, 5)] := rfl
  exact claim_C1 _ _ _ _ _ h 7 5 (by decide)

/-- C6: over a candidate list of length `n`, the `k`-th `nextCandidate` call
returns `k` while `k < n`, returns the sentinel `-1` from the `(n+1)`-st call
onward, and the cursor never exceeds `n`. -/
theorem claim_C6 {T : Type} (o : T) (cands : List T) (k : Nat) :
    (k < cands.length →
      (MatchContainer.advance^[k] (MatchContainer.new o cands)).nextCandidate.fst
        = (k : Int)) ∧
    (cands.length ≤ k →
      (MatchContainer.advance^[k] (MatchContainer.new o cands)).nextCandidate.fst = -1) ∧
    (MatchContainer.advance^[k] (MatchContainer.new o cands)).currentCandidate
      ≤ cands.length := by
  rw [advance_iterate]
  refine ⟨?_, ?_, ?_⟩
  · intro hk
    rw [MatchContainer.nextCandidate_live
      (show min k cands.length < cands.length by omega)]
    have hmin : min k cands.length = k := by omega
    show ((min k cands.length : Nat) : Int) = (k : Int)
    rw [hmin]
  · intro hk
    rw [MatchContainer.nextCandidate_exhausted
      (show cands.length ≤ min k cands.length by omega)]
  · show min k cands.length ≤ cands.length
    omega

/-- Witness for C6 at candidate list `[10, 20, 30]`: the second call returns
`1` and the fifth call returns the sentinel. -/
theorem claim_C6_witness :
    ((MatchContainer.advance^[1] (MatchContainer.new (0 : Nat) [10, 20, 30])).nextCandidate.fst
      = (1 : Int)) ∧
    ((MatchContainer.advance^[4] (MatchContainer.new (0 : Nat) [10, 20, 30])).nextCandidate.fst
      = -1) :=
  ⟨(claim_C6 0 [10, 20, 30] 1).1 (by decide), (claim_C6 0 [10, 20, 30] 4).2.1 (by decide)⟩

/-- C10: with `maxLoopCount = 0` the round loop reaches a fixed point for
every input and predicate: after `vacancies.length + 1` rounds the `done` flag
holds, further rounds change nothing, and `match()` returns a result instead
of looping forever. -/
theorem claim_C10 {T : Type} (profiles vacancies : List T)
    (pred : T → Option T → T → Bool) :
    ((Matcher.new profiles vacancies pred 0).rounds (vacancies.length + 1)).done = true ∧
    (∀ k : Nat, (Matcher.new profiles vacancies pred 0).rounds (vacancies.length + 1 + k)
      = (Matcher.new profiles vacancies pred 0).rounds (vacancies.length + 1)) ∧
    (∃ s', (Matcher.new profiles vacancies pred 0).«match» = Except.ok s') := by
  have hmc := Matcher.maxCand_new profiles vacancies pred 0
  have h1 : ((Matcher.new profiles vacancies pred 0).rounds
      (vacancies.length + 1)).done = true := by
    rw [Matcher.rounds_ge _ (by omega)]
    exact Matcher.rounds_done _
  refine ⟨h1, ?_, ?_⟩
  · intro k
    have ha := Matcher.rounds_ge (Matcher.new profiles vacancies pred 0)
      (show (Matcher.new profiles vacancies pred 0).maxCand + 1
        ≤ vacancies.length + 1 + k by omega)
    have hb := Matcher.rounds_ge (Matcher.new profiles vacancies pred 0)
      (show (Matcher.new profiles vacancies pred 0).maxCand + 1
        ≤ vacancies.length + 1 by omega)
    rw [ha, hb]
  · cases hm : (Matcher.new profiles vacancies pred 0).«match» with
    | ok s' => exact ⟨s', rfl⟩
    | error e =>
      have hpos := ((Matcher.match_error_iff _ _).mp hm).2.1
      have h0 : (Matcher.new profiles vacancies pred 0).maxLoopCount = 0 := rfl
      rw [h0] at hpos
      omega

/-! ### Claims C2, C4, C5, C8: counterexamples -/

set_option maxHeartbeats 2000000 in
/-- Counterexample to C2 as stated: with two profiles `[10, 20]`, two vacancies
`[30, 40]` and the always-true predicate, the returned pair list is
`[(30, 20), (40, 20)]` — profile `20` appears twice on the profile side. -/
theorem claim_C2_counterexample :
    ((Matcher.new [10, 20] [30, 40] (fun (_ : Nat) _ _ => true) 0).getMatches).toOption.map
      Prod.fst = some [(30, 20), (40, 20)] ∧
    ¬ (([(30, 20), (40, 20)] : List (Nat × Nat)).map Prod.snd).Nodup :=
  ⟨rfl, by decide⟩

set_option maxHeartbeats 2000000 in
/-- Counterexample to C3 as stated: in the same run, at the end of round 2
vacancy `0` holds profile index `1` as its match while profile `1` holds
vacancy index `1` — the links are not symmetric at a round boundary. -/
theorem claim_C3_counterexample :
    (Option.bind (((Matcher.new [10, 20] [30, 40] (fun (_ : Nat) _ _ => true) 0).rounds
      2).wrappedVacancies[0]?) MatchContainer.«match» = some 1) ∧
    (Option.bind (((Matcher.new [10, 20] [30, 40] (fun (_ : Nat) _ _ => true) 0).rounds
      2).wrappedProfiles[1]?) MatchContainer.«match» = some 1) ∧
    ((some 1 : Option Nat) ≠ some 0) :=
  ⟨rfl, rfl, by decide⟩

set_option maxHeartbeats 2000000 in
/-- Counterexample to C4 as stated: one profile `0`, vacancies `[1, 2]`,
always-true predicate.  In round 2 the already-matched profile proposes to the
empty vacancy `2`; were the predicate consulted to decide acceptance, it would
return true and the vacancy would accept, so `2` would appear in the output.
The actual output is `[(1, 0)]`: vacancy `2` stays unmatched because the
`currentMatch !== null` guard skips the predicate entirely. -/
theorem claim_C4_counterexample :
    ((Matcher.new [0] [1, 2] (fun (_ : Nat) _ _ => true) 0).getMatches).toOption.map
      Prod.fst = some [(1, 0)] := rfl

set_option maxHeartbeats 2000000 in
/-- Counterexample to C5 as stated: with one profile `9`, vacancies `[4, 6]`
and the always-true predicate, round 2 changes no match on either side yet the
round ends with `done = false` (the matched profile's proposal to the empty
vacancy `6` clears the flag without any acceptance). -/
theorem claim_C5_counterexample :
    (((Matcher.new [9] [4, 6] (fun (_ : Nat) _ _ => true) 0).rounds 2).done = false) ∧
    ((Matcher.new [9] [4, 6] (fun (_ : Nat) _ _ => true) 0).rounds 2).profMatches
      = ((Matcher.new [9] [4, 6] (fun (_ : Nat) _ _ => true) 0).rounds 1).profMatches ∧
    ((Matcher.new [9] [4, 6] (fun (_ : Nat) _ _ => true) 0).rounds 2).vacMatches
      = ((Matcher.new [9] [4, 6] (fun (_ : Nat) _ _ => true) 0).rounds 1).vacMatches :=
  ⟨rfl, rfl, rfl⟩

set_option maxHeartbeats 2000000 in
/-- Counterexample to C8 as stated: profiles `[5]`, vacancies `[7]`, cap
`N = 2 > 0` and the always-true predicate do NOT raise NonConvergence — the
run returns the pair `(7, 5)`, because the cursors exhaust the candidate lists
and the loop reaches its fixed point within the cap. -/
theorem claim_C8_counterexample :
    ((Matcher.new [5] [7] (fun (_ : Nat) _ _ => true) 2).getMatches).toOption.map
      Prod.fst = some [(7, 5)] := rfl

/-! ### Claims C2, C4, C5: amended theorems -/

theorem map_fst_filterMap_sublist {α β γ : Type _} (f : α → Option (β × γ)) (g : α → β)
    (l : List α) (h : ∀ a b, f a = some b → b.1 = g a) :
    ((l.filterMap f).map Prod.fst).Sublist (l.map g) := by
  induction l with
  | nil => simp
  | cons a t ih =>
    rw [List.filterMap_cons]
    cases hf : f a with
    | none =>
      rw [List.map_cons]
      exact ih.cons _
    | some b =>
      rw [List.map_cons, List.map_cons, h a b hf]
      exact ih.cons₂ _

theorem collect_fst_sublist {T : Type} (s : Matcher T) :
    (s.collectMatches.map Prod.fst).Sublist
      (s.wrappedVacancies.map MatchContainer.obj) := by
  unfold Matcher.collectMatches
  apply map_fst_filterMap_sublist
  intro vacancy b hb
  cases hm : vacancy.«match» with
  | none => simp [hm] at hb
  | some pi =>
    simp only [hm] at hb
    cases hp : s.wrappedProfiles[pi]? with
    | none => simp [hp] at hb
    | some p =>
      simp only [hp] at hb
      rw [← Option.some.inj hb]

theorem new_vacObj {T : Type} (profiles vacancies : List T)
    (pred : T → Option T → T → Bool) (cap : Nat) :
    (Matcher.new profiles vacancies pred cap).wrappedVacancies.map MatchContainer.obj
      = vacancies := by
  unfold Matcher.new
  rw [List.map_map]
  exact List.map_id vacancies

/-- C2 amended: each vacancy appears at most once on the vacancy side of the
result (when the vacancy items are pairwise distinct, the vacancy column is
duplicate-free); the profile side is NOT duplicate-free in general — an
already-matched profile accepted by a second vacancy leaves a stale link and
can appear in several pairs (see the counterexample). -/
theorem claim_C2_amended {T : Type} (profiles vacancies : List T)
    (pred : T → Option T → T → Bool) (cap : Nat) (result : List (T × T))
    (hnd : vacancies.Nodup)
    (hrun : ((Matcher.new profiles vacancies pred cap).getMatches).toOption.map Prod.fst
      = some result) :
    (result.map Prod.fst).Nodup := by
  rw [Matcher.getMatches_not_done (Matcher.new_done profiles vacancies pred cap)] at hrun
  cases hm : (Matcher.new profiles vacancies pred cap).«match» with
  | error e => simp [hm, Except.toOption] at hrun
  | ok s2 =>
    simp only [hm, Except.toOption, Option.map_some'] at hrun
    have hres : s2.collectMatches = result := Option.some.inj hrun
    rcases (Matcher.match_ok_iff _ _).mp hm with ⟨_, hs2⟩
    have hobj : s2.wrappedVacancies.map MatchContainer.obj = vacancies := by
      rw [hs2, Matcher.evictUnmatching_vacObj, Matcher.runLoop_vacObj,
        new_vacObj profiles vacancies pred cap]
    have hsub := collect_fst_sublist s2
    rw [hres, hobj] at hsub
    exact hsub.nodup hnd

set_option maxHeartbeats 1000000 in
/-- Witness for the amended C2 at a concrete run. -/
theorem claim_C2_amended_witness :
    ((([(30, 20), (40, 20)] : List (Nat × Nat)).map Prod.fst).Nodup) := by
  have h : ((Matcher.new [10, 20] [30, 40]
      (fun (_ : Nat) (_ : Option Nat) (_ : Nat) => true) 0).getMatches).toOption.map
      Prod.fst = some [(30, 20), (40, 20)] := rfl
  exact claim_C2_amended _ _ _ _ _ (by decide) h

/-- C4 amended: when a profile that already holds a match proposes to a
vacancy whose current match is `none`, the predicate is NOT invoked: the step
only clears the `done` flag and advances the cursor, leaving every match
unchanged (the result does not mention the predicate at all).  The predicate
is consulted only when the proposed vacancy currently holds a match. -/
theorem claim_C4_amended {T : Type} (s : Matcher T) (pi : Nat)
    (wp cv : MatchContainer T) (vi : Nat)
    (h : s.wrappedProfiles[pi]? = some wp)
    (hlive : wp.currentCandidate < wp.candidates.length)
    (hv : s.wrappedVacancies[wp.currentCandidate]? = some cv)
    (hcv : cv.«match» = none) (hwp : wp.«match» = some vi) :
    Matcher.stepProfile s pi =
      { s with done := false
               wrappedProfiles := s.wrappedProfiles.set pi
                 { wp with currentCandidate := wp.currentCandidate + 1 } } :=
  Matcher.stepProfile_emptyVacMatchedProf h hlive hv hcv hwp

set_option maxHeartbeats 2000000 in
/-- Witness for the amended C4: round 2 of the run with profile `[0]` and
vacancies `[1, 2]` is exactly such a step. -/
theorem claim_C4_amended_witness :
    Matcher.stepProfile ((Matcher.new [0] [1, 2] (fun (_ : Nat) _ _ => true) 0).rounds 1) 0 =
      { (Matcher.new [0] [1, 2] (fun (_ : Nat) _ _ => true) 0).rounds 1 with
          done := false
          wrappedProfiles :=
            ((Matcher.new [0] [1, 2] (fun (_ : Nat) _ _ => true) 0).rounds
              1).wrappedProfiles.set 0
              { obj := 0, «match» := some 0, currentCandidate := 2, candidates := [1, 2] } } :=
  claim_C4_amended _ 0
    { obj := 0, «match» := some 0, currentCandidate := 1, candidates := [1, 2] }
    { obj := 2, «match» := none, currentCandidate := 0, candidates := [0] }
    0 rfl (by decide) rfl rfl rfl

/-! ### Claim C3: profile-side link soundness -/

namespace Matcher

variable {T : Type}

theorem setMatch_noop {l : List (MatchContainer T)} {i : Nat} (h : l[i]? = none)
    (m : Option Nat) : setMatch l i m = l := by
  unfold setMatch
  simp [h]

theorem stepProfile_ProfSym {s : Matcher T} (pi : Nat) (hsym : s.ProfSym) :
    (stepProfile s pi).ProfSym := by
  cases hp : s.wrappedProfiles[pi]? with
  | none => rw [stepProfile_noProfile hp]; exact hsym
  | some wp =>
    have hpl : pi < s.wrappedProfiles.length := (List.getElem?_eq_some.mp hp).1
    have hset : (s.wrappedProfiles.set pi
        { wp with currentCandidate := wp.currentCandidate + 1 })[pi]?
        = some { wp with currentCandidate := wp.currentCandidate + 1 } :=
      List.getElem?_set_eq_of_lt _ hpl
    have hcursor : ∀ (pm vm : Nat) (wpm : MatchContainer T),
        (s.wrappedProfiles.set pi
          { wp with currentCandidate := wp.currentCandidate + 1 })[pm]? = some wpm →
        wpm.«match» = some vm →
        ∃ cv', s.wrappedVacancies[vm]? = some cv' ∧ cv'.«match» = some pm := by
      intro pm vm wpm hpm hmm
      by_cases hpp : pm = pi
      · subst hpp
        rw [hset] at hpm
        have hww : { wp with currentCandidate := wp.currentCandidate + 1 } = wpm :=
          Option.some.inj hpm
        have hmm' : wp.«match» = some vm := by rw [← hww] at hmm; exact hmm
        exact hsym pm vm wp hp hmm'
      · rw [List.getElem?_set_ne (fun h => hpp h.symm)] at hpm
        exact hsym pm vm wpm hpm hmm
    rcases Nat.lt_or_ge wp.currentCandidate wp.candidates.length with hlive | hex
    · cases hv : s.wrappedVacancies[wp.currentCandidate]? with
      | none =>
        rw [stepProfile_noVacancy hp hlive hv]
        intro pm vm wpm hpm hmm
        exact hcursor pm vm wpm hpm hmm
      | some cv =>
        cases hcv : cv.«match» with
        | none =>
          cases hwp : wp.«match» with
          | none =>
            rw [stepProfile_acceptFree hp hlive hv hcv hwp]
            intro pm vm wpm hpm hmm
            have hpm' : (setMatch (s.wrappedProfiles.set pi
                { wp with currentCandidate := wp.currentCandidate + 1 })
                pi (some wp.currentCandidate))[pm]? = some wpm := hpm
            by_cases hpp : pm = pi
            · subst hpp
              rw [getElem?_setMatch_self _ hset] at hpm'
              have hww := Option.some.inj hpm'
              have hmm' : (some wp.currentCandidate : Option Nat) = some vm := by
                rw [← hww] at hmm
                exact hmm
              have hvm : vm = wp.currentCandidate := (Option.some.inj hmm').symm
              subst hvm
              exact ⟨{ cv with «match» := some pm }, getElem?_setMatch_self _ hv, rfl⟩
            · rw [getElem?_setMatch_ne _ _ (fun h => hpp h.symm)] at hpm'
              rcases hcursor pm vm wpm hpm' hmm with ⟨cv0, hcv0, hcvm⟩
              by_cases hvv : vm = wp.currentCandidate
              · subst hvv
                rw [hv] at hcv0
                have hceq : cv = cv0 := Option.some.inj hcv0
                rw [← hceq] at hcvm
                rw [hcv] at hcvm
                cases hcvm
              · refine ⟨cv0, ?_, hcvm⟩
                show (setMatch s.wrappedVacancies wp.currentCandidate (some pi))[vm]?
                  = some cv0
                rw [getElem?_setMatch_ne _ _ (fun h => hvv h.symm)]
                exact hcv0
          | some vi =>
            rw [stepProfile_emptyVacMatchedProf hp hlive hv hcv hwp]
            intro pm vm wpm hpm hmm
            exact hcursor pm vm wpm hpm hmm
        | some j =>
          cases hj : (s.wrappedProfiles.set pi
              { wp with currentCandidate := wp.currentCandidate + 1 })[j]? with
          | none =>
            rw [stepProfile_curMissing hp hlive hv hcv hj]
            intro pm vm wpm hpm hmm
            exact hcursor pm vm wpm hpm hmm
          | some cm =>
            cases hpref : s.vacancyPrefersProfile cv.obj (some cm.obj) wp.obj with
            | false =>
              rw [stepProfile_reject hp hlive hv hcv hj hpref]
              intro pm vm wpm hpm hmm
              exact hcursor pm vm wpm hpm hmm
            | true =>
              rw [stepProfile_acceptPred hp hlive hv hcv hj hpref]
              intro pm vm wpm hpm hmm
              have hpm' : (setMatch (setMatch (s.wrappedProfiles.set pi
                  { wp with currentCandidate := wp.currentCandidate + 1 }) j none)
                  pi (some wp.currentCandidate))[pm]? = some wpm := hpm
              by_cases hpp : pm = pi
              · subst hpp
                cases hx : (setMatch (s.wrappedProfiles.set pm
                    { wp with currentCandidate := wp.currentCandidate + 1 }) j none)[pm]? with
                | none =>
                  rw [setMatch_noop hx] at hpm'
                  rw [hx] at hpm'
                  cases hpm'
                | some X =>
                  rw [getElem?_setMatch_self _ hx] at hpm'
                  have hww := Option.some.inj hpm'
                  have hmm' : (some wp.currentCandidate : Option Nat) = some vm := by
                    rw [← hww] at hmm
                    exact hmm
                  have hvm : vm = wp.currentCandidate := (Option.some.inj hmm').symm
                  subst hvm
                  exact ⟨{ cv with «match» := some pm }, getElem?_setMatch_self _ hv, rfl⟩
              · rw [getElem?_setMatch_ne _ _ (fun h => hpp h.symm)] at hpm'
                by_cases hpj : pm = j
                · subst hpj
                  rw [getElem?_setMatch_self _ hj] at hpm'
                  have hww := Option.some.inj hpm'
                  have hmm' : (none : Option Nat) = some vm := by
                    rw [← hww] at hmm
                    exact hmm
                  cases hmm'
                · rw [getElem?_setMatch_ne _ _ (fun h => hpj h.symm)] at hpm'
                  rcases hcursor pm vm wpm hpm' hmm with ⟨cv0, hcv0, hcvm⟩
                  by_cases hvv : vm = wp.currentCandidate
                  · subst hvv
                    rw [hv] at hcv0
                    have hceq : cv = cv0 := Option.some.inj hcv0
                    rw [← hceq] at hcvm
                    rw [hcv] at hcvm
                    have := Option.some.inj hcvm
                    exact absurd this.symm hpj
                  · refine ⟨cv0, ?_, hcvm⟩
                    show (setMatch s.wrappedVacancies wp.currentCandidate (some pi))[vm]?
                      = some cv0
                    rw [getElem?_setMatch_ne _ _ (fun h => hvv h.symm)]
                    exact hcv0
    · rw [stepProfile_exhausted hp hex]
      exact hsym

theorem runRound_ProfSym {s : Matcher T} (hsym : s.ProfSym) : (runRound s).ProfSym := by
  unfold runRound
  exact foldl_inv_preserve Matcher.ProfSym Matcher.stepProfile
    (fun t i ht => stepProfile_ProfSym i ht) _ _ hsym

theorem loopStep_ProfSym {s : Matcher T} (hsym : s.ProfSym) : s.loopStep.ProfSym := by
  unfold loopStep
  split
  · exact hsym
  · exact runRound_ProfSym hsym

theorem rounds_ProfSym {s : Matcher T} (k : Nat) (hsym : s.ProfSym) :
    (s.rounds k).ProfSym := by
  induction k with
  | zero => exact hsym
  | succ k ih => exact loopStep_ProfSym ih

theorem new_ProfSym (profiles vacancies : List T)
    (pred : T → Option T → T → Bool) (cap : Nat) :
    (new profiles vacancies pred cap).ProfSym := by
  intro pi vi wp hp hm
  have hp' : (profiles.map (fun item => MatchContainer.new item vacancies))[pi]?
      = some wp := hp
  rw [List.getElem?_map] at hp'
  cases hpq : profiles[pi]? with
  | none => rw [hpq] at hp'; cases hp'
  | some it =>
    rw [hpq] at hp'
    have hww : MatchContainer.new it vacancies = wp := Option.some.inj hp'
    have hm' : (none : Option Nat) = some vi := by
      rw [← hww] at hm
      exact hm
    cases hm'

end Matcher

/-- C3 amended: at the end of every round (indeed in every state the round
loop can produce), the profile-to-vacancy direction of the match links is
sound: whenever profile `pi` holds `vi` as its match, vacancy `vi` holds `pi`.
The converse direction of the claim is false — a vacancy's link can go stale
when its matched profile is accepted elsewhere (see the counterexample). -/
theorem claim_C3_amended {T : Type} (profiles vacancies : List T)
    (pred : T → Option T → T → Bool) (cap : Nat) (k : Nat) :
    ((Matcher.new profiles vacancies pred cap).rounds k).ProfSym :=
  Matcher.rounds_ProfSym k (Matcher.new_ProfSym profiles vacancies pred cap)

/-- Witness for the amended C3 at the concrete counterexample run: the state
after two rounds still satisfies the profile-side direction. -/
theorem claim_C3_amended_witness :
    ((Matcher.new [10, 20] [30, 40] (fun (_ : Nat) (_ : Option Nat) (_ : Nat) => true)
      0).rounds 2).ProfSym :=
  claim_C3_amended [10, 20] [30, 40] (fun _ _ _ => true) 0 2

/-! ### Claim C5 amended: a converged round changes no match -/

namespace Matcher

variable {T : Type}

theorem stepProfile_done_noChange (t : Matcher T) (i : Nat)
    (h : (stepProfile t i).done = true) :
    (stepProfile t i).profMatches = t.profMatches ∧
    (stepProfile t i).vacMatches = t.vacMatches := by
  cases hp : t.wrappedProfiles[i]? with
  | none => rw [stepProfile_noProfile hp]; exact ⟨rfl, rfl⟩
  | some wp =>
    rcases Nat.lt_or_ge wp.currentCandidate wp.candidates.length with hlive | hex
    · cases hv : t.wrappedVacancies[wp.currentCandidate]? with
      | none =>
        rw [stepProfile_noVacancy hp hlive hv]
        refine ⟨?_, rfl⟩
        show (t.wrappedProfiles.set i
          { wp with currentCandidate := wp.currentCandidate + 1 }).map MatchContainer.«match»
          = t.wrappedProfiles.map MatchContainer.«match»
        exact map_set_eq hp rfl
      | some cv =>
        cases hcv : cv.«match» with
        | none =>
          cases hwp : wp.«match» with
          | none =>
            rw [stepProfile_acceptFree hp hlive hv hcv hwp] at h
            simp at h
          | some vi =>
            rw [stepProfile_emptyVacMatchedProf hp hlive hv hcv hwp] at h
            simp at h
        | some j =>
          cases hj : (t.wrappedProfiles.set i
              { wp with currentCandidate := wp.currentCandidate + 1 })[j]? with
          | none =>
            rw [stepProfile_curMissing hp hlive hv hcv hj]
            refine ⟨?_, rfl⟩
            show (t.wrappedProfiles.set i
              { wp with currentCandidate := wp.currentCandidate + 1 }).map
                MatchContainer.«match»
              = t.wrappedProfiles.map MatchContainer.«match»
            exact map_set_eq hp rfl
          | some cm =>
            cases hpref : t.vacancyPrefersProfile cv.obj (some cm.obj) wp.obj with
            | true =>
              rw [stepProfile_acceptPred hp hlive hv hcv hj hpref] at h
              simp at h
            | false =>
              rw [stepProfile_reject hp hlive hv hcv hj hpref]
              refine ⟨?_, rfl⟩
              show (t.wrappedProfiles.set i
                { wp with currentCandidate := wp.currentCandidate + 1 }).map
                  MatchContainer.«match»
                = t.wrappedProfiles.map MatchContainer.«match»
              exact map_set_eq hp rfl
    · rw [stepProfile_exhausted hp hex]
      exact ⟨rfl, rfl⟩

theorem foldl_done_noChange : ∀ (L : List Nat) (t : Matcher T),
    (L.foldl stepProfile t).done = true →
    (L.foldl stepProfile t).profMatches = t.profMatches ∧
    (L.foldl stepProfile t).vacMatches = t.vacMatches := by
  intro L
  induction L with
  | nil => intro t _; exact ⟨rfl, rfl⟩
  | cons a L ih =>
    intro t h
    rw [List.foldl_cons] at h
    have hstep : (stepProfile t a).done = true := foldl_step_done_mono L _ h
    rcases ih _ h with ⟨h1, h2⟩
    rcases stepProfile_done_noChange t a hstep with ⟨h3, h4⟩
    rw [List.foldl_cons]
    exact ⟨h1.trans h3, h2.trans h4⟩

end Matcher

/-- C5 amended: if a round ends with the `done` flag still true ("converged"),
then no proposal in it changed any match on either side.  The converse of the
claim is false: the flag is also cleared whenever a proposal merely finds an
unmatched vacancy, even when no acceptance or eviction occurs (see the
counterexample). -/
theorem claim_C5_amended {T : Type} (s : Matcher T)
    (h : (Matcher.runRound s).done = true) :
    (Matcher.runRound s).profMatches = s.profMatches ∧
    (Matcher.runRound s).vacMatches = s.vacMatches := by
  unfold Matcher.runRound at h ⊢
  exact Matcher.foldl_done_noChange _ _ h

set_option maxHeartbeats 1000000 in
/-- Witness for the amended C5: round 3 of the concrete run (profile `[9]`,
vacancies `[4, 6]`) is converged, and indeed changes no match. -/
theorem claim_C5_amended_witness :
    (Matcher.runRound ((Matcher.new [9] [4, 6]
        (fun (_ : Nat) (_ : Option Nat) (_ : Nat) => true) 0).rounds 2)).profMatches
      = ((Matcher.new [9] [4, 6]
        (fun (_ : Nat) (_ : Option Nat) (_ : Nat) => true) 0).rounds 2).profMatches := by
  have h : (Matcher.runRound ((Matcher.new [9] [4, 6]
      (fun (_ : Nat) (_ : Option Nat) (_ : Nat) => true) 0).rounds 2)).done = true := rfl
  exact (claim_C5_amended _ h).1

/-- C7: the engine raises its single error
`"Max loop count reached (infinite loop?)"` exactly when `maxLoopCount > 0`
and that many rounds complete without the loop reaching its fixed point; with
`maxLoopCount = 0` the error is never raised; and every error `getMatches`
propagates carries that same message (it is the only error). -/
theorem claim_C7 {T : Type} (profiles vacancies : List T)
    (pred : T → Option T → T → Bool) (cap : Nat) :
    (∀ e, (Matcher.new profiles vacancies pred cap).«match» = Except.error e ↔
      (e = "Max loop count reached (infinite loop?)" ∧ 0 < cap ∧
        ((Matcher.new profiles vacancies pred cap).rounds cap).done = false)) ∧
    (∀ e, (Matcher.new profiles vacancies pred cap).getMatches = Except.error e →
      e = "Max loop count reached (infinite loop?)") ∧
    (cap = 0 → ∃ s', (Matcher.new profiles vacancies pred cap).«match» = Except.ok s') := by
  refine ⟨?_, ?_, ?_⟩
  · intro e
    exact Matcher.match_error_iff (Matcher.new profiles vacancies pred cap) e
  · intro e he
    rw [Matcher.getMatches_not_done (Matcher.new_done profiles vacancies pred cap)] at he
    cases hm : (Matcher.new profiles vacancies pred cap).«match» with
    | error e2 =>
      simp only [hm] at he
      have he2 : e2 = e := Except.error.inj he
      rw [← he2]
      exact ((Matcher.match_error_iff _ _).mp hm).1
    | ok s2 => simp [hm] at he
  · intro hc
    subst hc
    cases hm : (Matcher.new profiles vacancies pred 0).«match» with
    | ok s' => exact ⟨s', rfl⟩
    | error e =>
      have hpos := ((Matcher.match_error_iff _ _).mp hm).2.1
      have h0 : (Matcher.new profiles vacancies pred 0).maxLoopCount = 0 := rfl
      rw [h0] at hpos
      omega

set_option maxHeartbeats 1000000 in
/-- Witness for C7: with one profile, two vacancies and cap `1`, round 1 is
not converged, so `match()` raises the error. -/
theorem claim_C7_witness :
    (Matcher.new [1] [2, 3] (fun (_ : Nat) (_ : Option Nat) (_ : Nat) => true) 1).«match»
      = Except.error "Max loop count reached (infinite loop?)" := by
  have hd : ((Matcher.new [1] [2, 3]
      (fun (_ : Nat) (_ : Option Nat) (_ : Nat) => true) 1).rounds 1).done = false := rfl
  exact ((claim_C7 [1] [2, 3] _ 1).1 _).mpr ⟨rfl, by omega, hd⟩

/-- C9: the matching computation runs at most once per engine instance: once
`getMatches` has returned `(result, s')`, the state `s'` has `done = true`, a
repeated call returns the very same result and state, and does so without
running the loop or consulting the predicate — swapping in any other predicate
`q` changes nothing about the repeated call. -/
theorem claim_C9 {T : Type} (profiles vacancies : List T)
    (pred : T → Option T → T → Bool) (cap : Nat) (result : List (T × T)) (s' : Matcher T)
    (hrun : (Matcher.new profiles vacancies pred cap).getMatches
      = Except.ok (result, s')) :
    s'.done = true ∧ s'.getMatches = Except.ok (result, s') ∧
    (∀ q : T → Option T → T → Bool,
      ({ s' with vacancyPrefersProfile := q } : Matcher T).getMatches
        = Except.ok (result, { s' with vacancyPrefersProfile := q })) := by
  rw [Matcher.getMatches_not_done (Matcher.new_done profiles vacancies pred cap)] at hrun
  cases hm : (Matcher.new profiles vacancies pred cap).«match» with
  | error e => simp [hm] at hrun
  | ok s2 =>
    simp only [hm] at hrun
    have hpair := Except.ok.inj hrun
    have h1 : s2.collectMatches = result := congrArg Prod.fst hpair
    have h2 : s2 = s' := congrArg Prod.snd hpair
    rcases (Matcher.match_ok_iff _ _).mp hm with ⟨hdone, hs2⟩
    have hdone' : s'.done = true := by
      rw [← h2, hs2, Matcher.evictUnmatching_done]
      exact hdone
    refine ⟨hdone', ?_, ?_⟩
    · rw [Matcher.getMatches_done hdone']
      rw [← h2, h1]
    · intro q
      have hd2 : ({ s' with vacancyPrefersProfile := q } : Matcher T).done = true := hdone'
      rw [Matcher.getMatches_done hd2]
      have hc : ({ s' with vacancyPrefersProfile := q } : Matcher T).collectMatches
          = s'.collectMatches := rfl
      rw [hc, ← h2, h1]

set_option maxHeartbeats 1000000 in
/-- Witness for C9: the second `getMatches` call on the state produced by the
concrete run (profile `[5]`, vacancy `[7]`) returns the same pair list and
state. -/
theorem claim_C9_witness :
    Matcher.getMatches
      { wrappedProfiles :=
          [{ obj := 5, «match» := some 0, currentCandidate := 1, candidates := [7] }]
        wrappedVacancies :=
          [{ obj := 7, «match» := some 0, currentCandidate := 0, candidates := [5] }]
        vacancyPrefersProfile := fun (_ : Nat) (_ : Option Nat) (_ : Nat) => true
        maxLoopCount := 0
        done := true }
      = Except.ok ([(7, 5)],
      { wrappedProfiles :=
          [{ obj := 5, «match» := some 0, currentCandidate := 1, candidates := [7] }]
        wrappedVacancies :=
          [{ obj := 7, «match» := some 0, currentCandidate := 0, candidates := [5] }]
        vacancyPrefersProfile := fun (_ : Nat) (_ : Option Nat) (_ : Nat) => true
        maxLoopCount := 0
        done := true }) := by
  have h : (Matcher.new [5] [7]
      (fun (_ : Nat) (_ : Option Nat) (_ : Nat) => true) 0).getMatches
      = Except.ok ([(7, 5)],
      { wrappedProfiles :=
          [{ obj := 5, «match» := some 0, currentCandidate := 1, candidates := [7] }]
        wrappedVacancies :=
          [{ obj := 7, «match» := some 0, currentCandidate := 0, candidates := [5] }]
        vacancyPrefersProfile := fun (_ : Nat) (_ : Option Nat) (_ : Nat) => true
        maxLoopCount := 0
        done := true }) := rfl
  exact (claim_C9 [5] [7] _ 0 _ _ h).2.1

/-! ### Claim C8: rounds 1..len(vacancies) are never converged -/

theorem bumpCursor_iterate_of_le {S : Type} (l : List S) :
    ∀ k : Nat, k ≤ l.length → bumpCursor^[k] ((0 : Nat), l) = (k, l) := by
  intro k
  induction k with
  | zero => intro _; rfl
  | succ k ih =>
    intro hk
    rw [Function.iterate_succ_apply', ih (by omega)]
    unfold bumpCursor
    simp [show k < l.length from hk]

namespace Matcher

variable {T : Type}

theorem stepProfile_vac_ne {t : Matcher T} {a k vj : Nat}
    (hcur : ∀ wp : MatchContainer T, t.wrappedProfiles[a]? = some wp →
      wp.currentCandidate = k)
    (hne : vj ≠ k) :
    (stepProfile t a).wrappedVacancies[vj]? = t.wrappedVacancies[vj]? := by
  cases hp : t.wrappedProfiles[a]? with
  | none => rw [stepProfile_noProfile hp]
  | some wp =>
    have hk := hcur wp hp
    rcases Nat.lt_or_ge wp.currentCandidate wp.candidates.length with hlive | hex
    · cases hv : t.wrappedVacancies[wp.currentCandidate]? with
      | none => rw [stepProfile_noVacancy hp hlive hv]
      | some cv =>
        cases hcv : cv.«match» with
        | none =>
          cases hwp : wp.«match» with
          | none =>
            rw [stepProfile_acceptFree hp hlive hv hcv hwp]
            show (setMatch t.wrappedVacancies wp.currentCandidate (some a))[vj]? = _
            rw [getElem?_setMatch_ne _ _ (by omega)]
          | some vi => rw [stepProfile_emptyVacMatchedProf hp hlive hv hcv hwp]
        | some j =>
          cases hj : (t.wrappedProfiles.set a
              { wp with currentCandidate := wp.currentCandidate + 1 })[j]? with
          | none => rw [stepProfile_curMissing hp hlive hv hcv hj]
          | some cm =>
            cases hpref : t.vacancyPrefersProfile cv.obj (some cm.obj) wp.obj with
            | true =>
              rw [stepProfile_acceptPred hp hlive hv hcv hj hpref]
              show (setMatch t.wrappedVacancies wp.currentCandidate (some a))[vj]? = _
              rw [getElem?_setMatch_ne _ _ (by omega)]
            | false => rw [stepProfile_reject hp hlive hv hcv hj hpref]
    · rw [stepProfile_exhausted hp hex]

theorem foldl_vac_preserve (k : Nat) :
    ∀ (L : List Nat) (t : Matcher T), L.Nodup →
    (∀ i ∈ L, ∀ wp : MatchContainer T, t.wrappedProfiles[i]? = some wp →
      wp.currentCandidate = k) →
    ∀ vj, vj ≠ k →
    (L.foldl stepProfile t).wrappedVacancies[vj]? = t.wrappedVacancies[vj]? := by
  intro L
  induction L with
  | nil => intro t _ _ vj _; rfl
  | cons a L ih =>
    intro t hnd hcur vj hne
    rw [List.foldl_cons]
    have hstep := stepProfile_vac_ne
      (fun wp hw => hcur a (List.mem_cons_self a L) wp hw) hne
    have hcur' : ∀ i ∈ L, ∀ wp : MatchContainer T,
        (stepProfile t a).wrappedProfiles[i]? = some wp → wp.currentCandidate = k := by
      intro i hi wp hwp
      have hia : i ≠ a := fun h => (List.nodup_cons.mp hnd).1 (h ▸ hi)
      have hpcl := stepProfile_pcl_ne t hia
      rw [hwp] at hpcl
      cases ht : t.wrappedProfiles[i]? with
      | none => simp [ht] at hpcl
      | some c =>
        rw [ht] at hpcl
        have hpc : wp.pcl = c.pcl := Option.some.inj hpcl
        have hcc : wp.currentCandidate = c.currentCandidate := congrArg Prod.fst hpc
        rw [hcc]
        exact hcur i (List.mem_cons_of_mem a hi) c ht
    rw [ih (stepProfile t a) (List.nodup_cons.mp hnd).2 hcur' vj hne, hstep]

end Matcher

theorem rounds_done_false_of_le {T : Type} (P V : List T)
    (pred : T → Option T → T → Bool) (N : Nat) (hP : P ≠ []) :
    ∀ k, k ≤ V.length →
    ((((Matcher.new P V pred N).rounds k).done = false) ∧
     (∀ vj, k ≤ vj → ∀ cv : MatchContainer T,
       ((Matcher.new P V pred N).rounds k).wrappedVacancies[vj]? = some cv →
       cv.«match» = none)) := by
  intro k
  induction k with
  | zero =>
    intro _
    refine ⟨rfl, ?_⟩
    intro vj _ cv hcv
    have hcv' : (V.map (fun item => MatchContainer.new item P))[vj]? = some cv := hcv
    rw [List.getElem?_map] at hcv'
    cases hq : V[vj]? with
    | none => simp [hq] at hcv'
    | some it =>
      simp only [hq, Option.map_some'] at hcv'
      have hit := Option.some.inj hcv'
      rw [← hit]
      rfl
  | succ k ih =>
    intro hk1
    have hk : k ≤ V.length := Nat.le_of_succ_le hk1
    rcases ih hk with ⟨hdf, hvac⟩
    have hcursors : ∀ (i : Nat) (wp : MatchContainer T),
        ((Matcher.new P V pred N).rounds k).wrappedProfiles[i]? = some wp →
        wp.currentCandidate = k ∧ wp.candidates = V := by
      intro i wp hw
      rcases Matcher.rounds_pcl_or (Matcher.new P V pred N) k with ⟨j, hj, hdj⟩ | hpcl
      · have hdk : ((Matcher.new P V pred N).rounds k).done = true := by
          have hs := Matcher.rounds_stable hdj (k - j)
          rw [show j + (k - j) = k from by omega] at hs
          rw [hs]
          exact hdj
        rw [hdf] at hdk
        cases hdk
      · have hp := hpcl i
        rw [hw] at hp
        cases hs0 : (Matcher.new P V pred N).wrappedProfiles[i]? with
        | none => simp [hs0] at hp
        | some c0 =>
          rw [hs0] at hp
          have hc0 : c0.currentCandidate = 0 ∧ c0.candidates = V := by
            have hs0' : (P.map (fun item => MatchContainer.new item V))[i]? = some c0 := hs0
            rw [List.getElem?_map] at hs0'
            cases hq : P[i]? with
            | none => simp [hq] at hs0'
            | some it =>
              simp only [hq, Option.map_some'] at hs0'
              have hit := Option.some.inj hs0'
              rw [← hit]
              exact ⟨rfl, rfl⟩
          simp only [Option.map_some'] at hp
          have hpp : wp.pcl = bumpCursor^[k] c0.pcl := Option.some.inj hp
          have hc0p : c0.pcl = ((0 : Nat), V) := by
            unfold MatchContainer.pcl
            rw [hc0.1, hc0.2]
          rw [hc0p, bumpCursor_iterate_of_le V k hk] at hpp
          exact ⟨congrArg Prod.fst hpp, congrArg Prod.snd hpp⟩
    have hround : (Matcher.new P V pred N).rounds (k + 1)
        = Matcher.runRound ((Matcher.new P V pred N).rounds k) := by
      show ((Matcher.new P V pred N).rounds k).loopStep = _
      exact Matcher.loopStep_of_not_done hdf
    have hplen : 0 < ((Matcher.new P V pred N).rounds k).wrappedProfiles.length := by
      rw [Matcher.rounds_profLen]
      show 0 < (P.map (fun item => MatchContainer.new item V)).length
      rw [List.length_map]
      exact List.length_pos.mpr hP
    obtain ⟨wp0, hwp0⟩ : ∃ wp0, ((Matcher.new P V pred N).rounds
        k).wrappedProfiles[0]? = some wp0 :=
      ⟨_, List.getElem?_eq_getElem hplen⟩
    rcases hcursors 0 wp0 hwp0 with ⟨hcur0, hcand0⟩
    have hvlen : ((Matcher.new P V pred N).rounds k).wrappedVacancies.length
        = V.length := by
      rw [Matcher.rounds_vacLen]
      show (V.map (fun item => MatchContainer.new item P)).length = V.length
      rw [List.length_map]
    have hkv : k < V.length := hk1
    obtain ⟨cv0, hcv0⟩ : ∃ cv0, ((Matcher.new P V pred N).rounds
        k).wrappedVacancies[k]? = some cv0 :=
      ⟨_, List.getElem?_eq_getElem (by rw [hvlen]; exact hkv)⟩
    have hcv0m : cv0.«match» = none := hvac k (Nat.le_refl k) cv0 hcv0
    have hstep0 : (Matcher.stepProfile
        { (Matcher.new P V pred N).rounds k with done := true } 0).done = false := by
      have hp0 : ({ (Matcher.new P V pred N).rounds k with done := true }
          : Matcher T).wrappedProfiles[0]? = some wp0 := hwp0
      have hlive0 : wp0.currentCandidate < wp0.candidates.length := by
        rw [hcur0, hcand0]
        exact hkv
      have hv0 : ({ (Matcher.new P V pred N).rounds k with done := true }
          : Matcher T).wrappedVacancies[wp0.currentCandidate]? = some cv0 := by
        show ((Matcher.new P V pred N).rounds k).wrappedVacancies[wp0.currentCandidate]?
          = some cv0
        rw [hcur0]
        exact hcv0
      cases hwpm : wp0.«match» with
      | none => rw [Matcher.stepProfile_acceptFree hp0 hlive0 hv0 hcv0m hwpm]
      | some vi => rw [Matcher.stepProfile_emptyVacMatchedProf hp0 hlive0 hv0 hcv0m hwpm]
    refine ⟨?_, ?_⟩
    · rw [hround]
      unfold Matcher.runRound
      cases hm : ((Matcher.new P V pred N).rounds k).wrappedProfiles.length with
      | zero => rw [hm] at hplen; exact absurd hplen (by omega)
      | succ m =>
        rw [List.range_succ_eq_map, List.foldl_cons]
        cases hfin : ((List.map Nat.succ (List.range m)).foldl Matcher.stepProfile
            (Matcher.stepProfile
              { (Matcher.new P V pred N).rounds k with done := true } 0)).done with
        | false => rfl
        | true =>
          have hmono := Matcher.foldl_step_done_mono _ _ hfin
          rw [hstep0] at hmono
          cases hmono
    · intro vj hvj cv hcv
      rw [hround] at hcv
      have hpres : (Matcher.runRound ((Matcher.new P V pred
          N).rounds k)).wrappedVacancies[vj]?
          = ((Matcher.new P V pred N).rounds k).wrappedVacancies[vj]? := by
        unfold Matcher.runRound
        exact Matcher.foldl_vac_preserve k
          (List.range ((Matcher.new P V pred N).rounds k).wrappedProfiles.length)
          { (Matcher.new P V pred N).rounds k with done := true }
          (List.nodup_range _)
          (fun i _ wp hwp => (hcursors i wp hwp).1) vj (by omega)
      rw [hpres] at hcv
      exact hvac vj (by omega) cv hcv

/-- C8 amended: with non-empty profile and vacancy lists and the always-true
predicate, the engine raises NonConvergence exactly when
`0 < N ≤ len(vacancies)`: the first `len(vacancies)` rounds are never
converged (every round proposes to a fresh, still-empty vacancy), but the
cursors exhaust their lists after that, so round `len(vacancies) + 1` reaches
the fixed point and any larger cap never errors (see the counterexample for
the original claim). -/
theorem claim_C8_amended {T : Type} (profiles vacancies : List T) (N : Nat)
    (hP : profiles ≠ []) (_hV : vacancies ≠ []) :
    ((Matcher.new profiles vacancies (fun _ _ _ => true) N).«match»
        = Except.error "Max loop count reached (infinite loop?)") ↔
      (0 < N ∧ N ≤ vacancies.length) := by
  rw [Matcher.match_error_iff]
  have hcap : (Matcher.new profiles vacancies
      (fun (_ : T) (_ : Option T) (_ : T) => true) N).maxLoopCount = N := rfl
  rw [hcap]
  constructor
  · intro ⟨_, hpos, hdone⟩
    refine ⟨hpos, ?_⟩
    by_contra hgt
    push_neg at hgt
    have hmc := Matcher.maxCand_new profiles vacancies
      (fun (_ : T) (_ : Option T) (_ : T) => true) N
    have hge := Matcher.rounds_ge (Matcher.new profiles vacancies
      (fun (_ : T) (_ : Option T) (_ : T) => true) N)
      (show (Matcher.new profiles vacancies
        (fun (_ : T) (_ : Option T) (_ : T) => true) N).maxCand + 1 ≤ N from by omega)
    rw [hge, Matcher.rounds_done] at hdone
    cases hdone
  · intro ⟨hpos, hle⟩
    exact ⟨rfl, hpos,
      (rounds_done_false_of_le profiles vacancies _ N hP N hle).1⟩

/-- Witness for the amended C8: one profile, two vacancies, cap `2 ≤ 2`
raises the error. -/
theorem claim_C8_amended_witness :
    (Matcher.new [1] [2, 3] (fun (_ : Nat) (_ : Option Nat) (_ : Nat) => true) 2).«match»
      = Except.error "Max loop count reached (infinite loop?)" :=
  (claim_C8_amended [1] [2, 3] 2 (by decide) (by decide)).mpr ⟨by omega, by decide⟩

end GaleShapley
